import Mathlib

/-
Verification development for the DHA synthetic dataset generator
(src/generate_dha_datasets.py).

Modelling conventions (shallow embedding):
* Randomness: the Python module uses one seeded global generator.  We model
  every random call site by an oracle tape, a family of natural-number valued
  functions gathered in a tape structure which plays the role of the seed.
  random.randint(a, b) is modelled as a + r % (b - a + 1), random.choice(lst)
  as lst[r % len(lst)], random.random() < p branches as Bool tape entries,
  random.sample as an explicit without-replacement draw from a shrinking pool.
* Datetimes are modelled as integer day numbers; the conversion from a
  (year, month, day) triple uses a fixed injective linear encoding, since no
  claim depends on exact Gregorian day arithmetic, only on adding day spans
  and comparing datetimes produced within one run.  strftime of a date is
  injective at day granularity, so distinct model values mean distinct bytes.
* Rates are exact fractions of naturals (the Rate structure); the Python
  int() truncation of the non-negative product num_rows * rate is the floor
  of the exact rational product, computed as (n * num) / den.
* The unbounded uniqueness while loop is given explicit fuel; every claim
  only needs that the result is one of the attempted identifiers.
-/

set_option maxHeartbeats 1600000

namespace DHA

/-- One step of the doubling loop in calculate_luhn_checksum: the digit is
doubled and, when the result exceeds 9, reduced by 9. -/
def luhnDouble (d : Nat) : Nat :=
  let t := 2 * d
  if t > 9 then t - 9 else t

/-- Sum of the transformed digits, consuming the digit list right to left:
the loop for i in range(len(digits)-1, -1, -2) doubles every second digit
counted 0-indexed from the right and leaves the others unchanged. -/
def luhnSumRev : List Nat → Nat
  | [] => 0
  | [a] => luhnDouble a
  | a :: b :: rest => luhnDouble a + b + luhnSumRev rest

/-- calculate_luhn_checksum (generate_dha_datasets.py lines 80-97) acting on
the digit list of the input string: double every second digit from the right,
subtract 9 from doubled values exceeding 9, and return
(10 - (sum mod 10)) mod 10. -/
def calculate_luhn_checksum (digits : List Nat) : Nat :=
  (10 - luhnSumRev digits.reverse % 10) % 10

/-- Rendering of a single decimal digit as a character. -/
def digitChar (n : Nat) : Char := Char.ofNat (48 + n % 10)

/-- int(d) on a decimal digit character, as in the list comprehension of
calculate_luhn_checksum. -/
def charDigit (c : Char) : Nat := c.toNat - 48

/-- Digit list of a character list, modelling [int(d) for d in number]. -/
def digitsOfChars (cs : List Char) : List Nat := cs.map charDigit

/-- The 12 digit base of generate_sa_id_number (lines 100-142):
YYMMDD from the birth date with yy = year % 100 and %02d padding,
a 4 digit zero padded sequence randint(0, 9999) modelled as rSeq % 10000,
the citizenship digit 0, and the age indicator randint(0, 8) modelled as
rAge % 9. -/
def idBaseDigits (y m d rSeq rAge : Nat) : List Nat :=
  let yy := y % 100
  let seq := rSeq % 10000
  [yy / 10 % 10, yy % 10, m / 10 % 10, m % 10, d / 10 % 10, d % 10,
   seq / 1000 % 10, seq / 100 % 10, seq / 10 % 10, seq % 10,
   0, rAge % 9]

/-- generate_sa_id_number: the 12 digit base followed by its Luhn checksum
digit, rendered as a 13 character string. -/
def generate_sa_id_number (y m d rSeq rAge : Nat) : String :=
  let base := idBaseDigits y m d rSeq rAge
  String.mk ((base ++ [calculate_luhn_checksum base]).map digitChar)

/-- random.choice(lst): pick lst[r % len(lst)] for the tape value r; the
default d is only reached on an empty list, where CPython would raise. -/
def chooseFrom {α : Type} (l : List α) (r : Nat) (d : α) : α :=
  l.getD (r % l.length) d

/-- random.sample(pool, k): draw k elements without replacement, modelled by
repeatedly choosing a random position of the shrinking pool (tape value mod
current pool size) and removing it. -/
def sampleAux (t : Nat → Nat) : Nat → List Nat → Nat → List Nat
  | 0, _, _ => []
  | _ + 1, [], _ => []
  | k + 1, a :: pool, step =>
    let l := a :: pool
    let j := t step % l.length
    l.getD j 0 :: sampleAux t k (l.eraseIdx j) (step + 1)

/-- random.sample(range(n), k), as used for every index-set selection. -/
def sampleIndices (n k : Nat) (t : Nat → Nat) : List Nat :=
  sampleAux t k (List.range n) 0

/-- The nine South African provinces (module constant SA_PROVINCES). -/
def SA_PROVINCES : List String :=
  ["Eastern Cape", "Free State", "Gauteng", "KwaZulu-Natal",
   "Limpopo", "Mpumalanga", "Northern Cape", "North West", "Western Cape"]

/-- DHA branch names by province (module constant DHA_BRANCHES), kept in the
Python dict insertion order. -/
def DHA_BRANCHES : List (String × List String) :=
  [("Eastern Cape", ["Port Elizabeth", "East London", "Mthatha"]),
   ("Free State", ["Bloemfontein", "Welkom"]),
   ("Gauteng", ["Johannesburg", "Pretoria", "Soweto", "Sandton", "Midrand"]),
   ("KwaZulu-Natal", ["Durban", "Pietermaritzburg", "Newcastle"]),
   ("Limpopo", ["Polokwane", "Tzaneen"]),
   ("Mpumalanga", ["Nelspruit", "Witbank"]),
   ("Northern Cape", ["Kimberley", "Upington"]),
   ("North West", ["Mahikeng", "Rustenburg"]),
   ("Western Cape", ["Cape Town", "Stellenbosch", "George"])]

def APPLICATION_TYPES : List String := ["ID Card", "Passport"]

def APPLICATION_STATUSES : List String :=
  ["Pending", "In Progress", "Approved", "Rejected", "Completed"]

def SUBMISSION_CHANNELS : List String := ["Branch", "Online", "Mobile Unit"]

/-- Keys of the DHA_BRANCHES dict. -/
def dhaKeys : List String := DHA_BRANCHES.map (·.1)

/-- Dict lookup DHA_BRANCHES[p] (keys are distinct, so first match is the
dict entry). -/
def dhaGet (p : String) : Option (List String) :=
  (DHA_BRANCHES.find? (fun q => q.1 == p)).map (·.2)

/-- Two-character decimal rendering of n < 100, modelling the %02d format. -/
def pad2 (n : Nat) : List Char := [digitChar (n / 10), digitChar n]

/-- Four-character decimal rendering of n < 10000, modelling the %04d format. -/
def pad4 (n : Nat) : List Char :=
  [digitChar (n / 1000), digitChar (n / 100), digitChar (n / 10), digitChar n]

/-- Calendar abstraction: a datetime(y, m, d) is the integer day number below.
The encoding is injective on valid triples, and all the date arithmetic the
claims touch (adding day spans, subtracting datetimes, comparisons) happens on
these day numbers, mirroring timedelta arithmetic. -/
def dateToDays (y m d : Nat) : Int :=
  372 * (y : Int) + 31 * ((m : Int) - 1) + ((d : Int) - 1)

/-- strftime %Y-%m-%d of a datetime built from the triple (y, m, d). -/
def dateStr (y m d : Nat) : String :=
  String.mk (pad4 y ++ '-' :: pad2 m ++ '-' :: pad2 d)

/-- Oracle tape for one generate_population_data call: one entry per random
call site, indexed by record number (and attempt number for the identifier
redraw loop, step number for sampling and the duplicate pass). -/
structure PopTape where
  sampleDup : Nat → Nat
  sampleMiss : Nat → Nat
  samplePostal : Nat → Nat
  sampleFuture : Nat → Nat
  sampleFmt : Nat → Nat
  fmtType : Nat → Nat
  missField : Nat → Nat
  birthY : Nat → Nat
  birthM : Nat → Nat
  birthD : Nat → Nat
  genderR : Nat → Nat
  idSeq : Nat → Nat → Nat
  idAge : Nat → Nat → Nat
  firstNameF : Nat → String
  lastNameF : Nat → String
  nameCaseCoin : Nat → Bool
  provinceR : Nat → Nat
  cityF : Nat → String
  streetF : Nat → String
  postcodeF : Nat → String
  postalKind : Nat → Nat
  postal3 : Nat → Nat
  postal5 : Nat → Nat
  cellPfx : Nat → Nat
  cellSuffixR : Nat → Nat
  createdR : Nat → Nat
  futureR : Nat → Nat
  dupSrc : Nat → Nat
  deriving Inhabited

/-- One population registry row, with the columns of the generated table.
date_of_birth carries the %Y-%m-%d rendering; record_created_date carries the
model day number (its %Y-%m-%d rendering is injective at day granularity). -/
structure PopRow where
  sa_id_number : String
  first_name : String
  last_name : String
  date_of_birth : String
  gender : String
  citizenship_status : String
  province : String
  city : Option String
  street_address : Option String
  postal_code : Option String
  cell_number : Option String
  record_created_date : Int
  deriving DecidableEq, Inhabited

/-- A rate parameter, given as the exact fraction num / den; the claims range
over rates in [0, 1], so den is positive there.  Keeping the fraction as a
pair of naturals keeps the whole model kernel-computable. -/
structure Rate where
  num : Nat
  den : Nat
  deriving DecidableEq, Inhabited

/-- num_duplicates = int(num_rows * duplicate_rate) and its analogues: the
int() truncation of the non-negative product, i.e. the floor of the exact
rational n * rate, computed as (n * num) / den in natural division. -/
def rateCount (n : Nat) (r : Rate) : Nat := n * r.num / r.den

/-- duplicate_indices (line 180): empty when the count is zero, otherwise a
without-replacement sample of min(count, num_rows) indices from range(n). -/
def popDupIdx (n : Nat) (dupRate : Rate) (t : PopTape) : List Nat :=
  let c := rateCount n dupRate
  if c > 0 then sampleIndices n (min c n) t.sampleDup else []

/-- missing_indices (line 181). -/
def popMissIdx (n : Nat) (missRate : Rate) (t : PopTape) : List Nat :=
  let c := rateCount n missRate
  if c > 0 then sampleIndices n (min c n) t.sampleMiss else []

/-- invalid_postal_indices (line 182). -/
def popPostalIdx (n : Nat) (invRate : Rate) (t : PopTape) : List Nat :=
  let c := rateCount n invRate
  if c > 0 then sampleIndices n (min c n) t.samplePostal else []

/-- future_date_indices (line 183). -/
def popFutureIdx (n : Nat) (invRate : Rate) (t : PopTape) : List Nat :=
  let c := rateCount n invRate
  if c > 0 then sampleIndices n (min c n) t.sampleFuture else []

/-- formatting_indices (line 184): the count uses invalid_rate * 2, i.e. the
fraction with doubled numerator. -/
def popFmtIdx (n : Nat) (invRate : Rate) (t : PopTape) : List Nat :=
  let c := rateCount n ⟨invRate.num * 2, invRate.den⟩
  if c > 0 then sampleIndices n (min c n) t.sampleFmt else []

/-- formatting_types[idx] = random.choice(['name_case', 'phone_format']). -/
def fmtChoiceAt (t : PopTape) (i : Nat) : String :=
  chooseFrom ["name_case", "phone_format"] (t.fmtType i) "name_case"

/-- missing_fields[idx] = random.choice(fields_to_make_missing). -/
def missFieldAt (t : PopTape) (i : Nat) : String :=
  chooseFrom ["street_address", "cell_number", "postal_code", "city"]
    (t.missField i) "city"

/-- The uniqueness while loop (lines 216-219): regenerate until the id is not
among the already issued ones.  The unbounded loop carries explicit fuel; on
exhaustion the current attempt is returned.  Every result is the attempt mk k
for some k, which is all the identifier claims need. -/
def genIdRetry (taken : List String) (mk : Nat → String) : Nat → Nat → String
  | k, 0 => mk k
  | k, fuel + 1 => if mk k ∈ taken then genIdRetry taken mk (k + 1) fuel else mk k

/-- The body of the generation loop (lines 200-311) for record index i, given
the ids issued so far.  Faker-derived free-text fields are oracle strings. -/
def mkPopRow (n : Nat) (dupRate missRate invRate : Rate) (t : PopTape) (now : Int)
    (taken : List String) (i : Nat) : PopRow :=
  let missIdx := popMissIdx n missRate t
  let postalIdx := popPostalIdx n invRate t
  let futureIdx := popFutureIdx n invRate t
  let fmtIdx := popFmtIdx n invRate t
  let y := 1944 + t.birthY i % 63
  let m := 1 + t.birthM i % 12
  let d := 1 + t.birthD i % 28
  let gender := chooseFrom ["Male", "Female"] (t.genderR i) "Male"
  let sa_id := genIdRetry taken
    (fun k => generate_sa_id_number y m d (t.idSeq i k) (t.idAge i k))
    0 (taken.length + 1)
  let fn0 := t.firstNameF i
  let first_name :=
    if i ∈ fmtIdx ∧ fmtChoiceAt t i = "name_case" then
      if t.nameCaseCoin i then fn0.toUpper else fn0.toLower
    else fn0
  let province := chooseFrom SA_PROVINCES (t.provinceR i) "Gauteng"
  let city :=
    if i ∉ missIdx ∨ missFieldAt t i ≠ "city" then some (t.cityF i) else none
  let street_address :=
    if i ∉ missIdx ∨ missFieldAt t i ≠ "street_address" then some (t.streetF i)
    else none
  let postal0 :=
    if i ∈ postalIdx then
      chooseFrom [toString (100 + t.postal3 i % 900),
                  toString (10000 + t.postal5 i % 90000), "ABCD", ""]
        (t.postalKind i) ""
    else t.postcodeF i
  let postal_code :=
    if i ∈ missIdx ∧ missFieldAt t i = "postal_code" then none else some postal0
  let cell0 := chooseFrom ["+27", "0"] (t.cellPfx i) "0"
      ++ toString (100000000 + t.cellSuffixR i % 900000000)
  let cell1 :=
    if i ∈ fmtIdx ∧ fmtChoiceAt t i = "phone_format" then
      if cell0.startsWith "+27" then "0" ++ cell0.drop 3
      else if cell0.startsWith "0" then "+27" ++ cell0.drop 1
      else cell0
    else cell0
  let cell_number :=
    if i ∈ missIdx ∧ missFieldAt t i = "cell_number" then none else some cell1
  let minCreated := dateToDays y m d + 365
  let daysDiff := now - minCreated
  let record_created_date :=
    if i ∈ futureIdx then now + ((1 + t.futureR i % 30 : Nat) : Int)
    else minCreated + ((t.createdR i % (daysDiff.toNat + 1) : Nat) : Int)
  { sa_id_number := sa_id
    first_name := first_name
    last_name := t.lastNameF i
    date_of_birth := dateStr y m d
    gender := gender
    citizenship_status := "South African"
    province := province
    city := city
    street_address := street_address
    postal_code := postal_code
    cell_number := cell_number
    record_created_date := record_created_date }

/-- The generation loop, threading the set of issued identifiers. -/
def popRowsFrom (n : Nat) (dupRate missRate invRate : Rate) (t : PopTape)
    (now : Int) : Nat → Nat → List String → List PopRow
  | 0, _, _ => []
  | remaining + 1, i, taken =>
    let row := mkPopRow n dupRate missRate invRate t now taken i
    row :: popRowsFrom n dupRate missRate invRate t now remaining (i + 1)
      (row.sa_id_number :: taken)

/-- The table before the duplicate pass. -/
def popRowsPre (n : Nat) (dupRate missRate invRate : Rate) (t : PopTape)
    (now : Int) : List PopRow :=
  popRowsFrom n dupRate missRate invRate t now n 0 []

/-- id_list (lines 294-296): the duplicate indices in loop order, i.e. in
increasing index order. -/
def popDupList (n : Nat) (dupRate : Rate) (t : PopTape) : List Nat :=
  (List.range n).filter (fun i => i ∈ popDupIdx n dupRate t)

/-- random.choice([idx for idx in all_indices if idx != dup_idx]) at line 318:
a uniformly random source index different from the overwritten index. -/
def dupSrcIdx (n d r : Nat) : Nat :=
  chooseFrom ((List.range n).filter (fun idx => idx ≠ d)) r 0

/-- The duplicate pass (lines 313-320) on the generated rows: walk id_list and
overwrite the sa_id_number of each selected row with the current sa_id_number
of the chosen source row. -/
def popDupPass (t : PopTape) (n : Nat) :
    List PopRow → List Nat → Nat → List PopRow
  | rows, [], _ => rows
  | rows, d :: rest, step =>
    let s := dupSrcIdx n d (t.dupSrc step)
    let rows2 := rows.set d
      { rows.getD d default with sa_id_number := (rows.getD s default).sa_id_number }
    popDupPass t n rows2 rest (step + 1)

/-- generate_population_data (lines 145-325), returning the final table. -/
def generate_population_data (n : Nat) (dupRate missRate invRate : Rate)
    (t : PopTape) (now : Int) : List PopRow :=
  popDupPass t n (popRowsPre n dupRate missRate invRate t now)
    (popDupList n dupRate t) 0

/-- The zero rate 0.0, as the fraction 0 / 1. -/
def rate0 : Rate := ⟨0, 1⟩

/-- The YYMMDD encoding of a %Y-%m-%d date string: the last two year
characters and the month and day characters. -/
def yymmddOfDateStr (s : String) : List Char :=
  [s.data.getD 2 ' ', s.data.getD 3 ' ', s.data.getD 5 ' ',
   s.data.getD 6 ' ', s.data.getD 8 ' ', s.data.getD 9 ' ']

/-- A concrete tape: record i has birth day 1 + i, and the duplicate sample
picks index 1, whose identifier is then overwritten from index 0. -/
def popTapeC1 : PopTape :=
  { (default : PopTape) with birthD := fun i => i, sampleDup := fun _ => 1 }

/-- The sa_id_number column view of the duplicate pass at lines 313-320: the
pass reads and writes only that column, so it is this fold over the bare
column values; popDupPass_map_sa_id below proves the correspondence. -/
def dupPassCol {α : Type} [Inhabited α] (pick : Nat → Nat) (n : Nat) :
    List α → List Nat → Nat → List α
  | ids, [], _ => ids
  | ids, d :: rest, step =>
    dupPassCol pick n
      (ids.set d (ids.getD (dupSrcIdx n d (pick step)) default)) rest (step + 1)

/-- Oracle tape for one generate_application_data call, one entry per random
call site, indexed by record number (bcR by the flattened branch index). -/
structure AppTape where
  appIdR : Nat → Nat
  refCoin : Nat → Bool
  pickIdR : Nat → Nat
  provDefaultR : Nat → Nat
  orphanY : Nat → Nat
  orphanM : Nat → Nat
  orphanD : Nat → Nat
  orphanSeq : Nat → Nat
  orphanAge : Nat → Nat
  orphanGender : Nat → Nat
  orphanProvR : Nat → Nat
  typeR : Nat → Nat
  appDateR : Nat → Nat
  statusR : Nat → Nat
  branchCoin : Nat → Bool
  branchR : Nat → Nat
  otherProvR : Nat → Nat
  otherBranchR : Nat → Nat
  fallbackProvR : Nat → Nat
  fallbackBranchR : Nat → Nat
  codeDefaultR : Nat → Nat
  channelR : Nat → Nat
  pdCoin : Nat → Bool
  pdR : Nat → Nat
  pdNegR : Nat → Nat
  pdBigR : Nat → Nat
  pdPickR : Nat → Nat
  updCoin : Nat → Bool
  updAfterR : Nat → Nat
  updBeforeR : Nat → Nat
  bcR : Nat → Nat
  deriving Inhabited

/-- One application row; application_date and last_updated_date carry model
day numbers, processing_days the integer value, application_status the
explicit absent option. -/
structure AppRow where
  application_id : String
  sa_id_number : String
  application_type : String
  application_date : Int
  application_status : Option String
  province : String
  dha_branch_name : String
  branch_code : String
  submission_channel : String
  processing_days : Int
  last_updated_date : Int
  deriving DecidableEq, Inhabited

/-- All branch names, flattened in DHA_BRANCHES iteration order. -/
def allBranches : List String := (DHA_BRANCHES.map (·.2)).flatten

/-- branch_codes (lines 448-451): one f-string %04d code per branch, from
randint(100, 9999). -/
def branch_codes (t : AppTape) : List (String × String) :=
  allBranches.enum.map (fun p => (p.2, String.mk (pad4 (100 + t.bcR p.1 % 9900))))

/-- branch_codes.get(b, default): first match equals dict lookup because the
branch names are pairwise distinct. -/
def bcGet (bcs : List (String × String)) (b : String) : Option String :=
  (bcs.find? (fun q => q.1 == b)).map (·.2)

/-- dict(zip(ids, provs)) followed by .get(k): the Python dict keeps the last
binding of a repeated key, hence the reversed search. -/
def dictGetLast (pairs : List (String × String)) (k : String) : Option String :=
  (pairs.reverse.find? (fun q => q.1 == k)).map (·.2)

/-- APPLICATION_STATUSES + [None] (line 487). -/
def statusOptions : List (Option String) :=
  APPLICATION_STATUSES.map some ++ [none]

/-- The loop body of generate_application_data (lines 456-540) for record i,
given the registry id column, the id to province dict and branch_codes. -/
def mkAppRow (popIds : List String) (idProv : List (String × String))
    (bcs : List (String × String)) (t : AppTape) (now : Int) (i : Nat) : AppRow :=
  let application_id := "APP" ++ toString (100000 + t.appIdR i % 900000)
  let ref := t.refCoin i
  let sa_id :=
    if ref then chooseFrom popIds (t.pickIdR i) ""
    else generate_sa_id_number (1980 + t.orphanY i % 21) (1 + t.orphanM i % 12)
      (1 + t.orphanD i % 28) (t.orphanSeq i) (t.orphanAge i)
  let province :=
    if ref then
      (dictGetLast idProv sa_id).getD
        (chooseFrom SA_PROVINCES (t.provDefaultR i) "Gauteng")
    else chooseFrom SA_PROVINCES (t.orphanProvR i) "Gauteng"
  let application_type := chooseFrom APPLICATION_TYPES (t.typeR i) "ID Card"
  let app_date := now - ((t.appDateR i % 1096 : Nat) : Int)
  let application_status := chooseFrom statusOptions (t.statusR i) none
  let dha_branch_name :=
    if (dhaGet province).isSome then
      if t.branchCoin i then
        chooseFrom ((dhaGet province).getD []) (t.branchR i) ""
      else
        let others := SA_PROVINCES.filter (fun p => p ≠ province)
        let op := chooseFrom others (t.otherProvR i) "Gauteng"
        chooseFrom ((dhaGet op).getD []) (t.otherBranchR i) ""
    else
      chooseFrom
        ((dhaGet (chooseFrom SA_PROVINCES (t.fallbackProvR i) "Gauteng")).getD [])
        (t.fallbackBranchR i) ""
  let branch_code := (bcGet bcs dha_branch_name).getD
    (String.mk (pad4 (1000 + t.codeDefaultR i % 9000)))
  let submission_channel := chooseFrom SUBMISSION_CHANNELS (t.channelR i) "Branch"
  let processing_days : Int :=
    if t.pdCoin i then ((5 + t.pdR i % 26 : Nat) : Int)
    else chooseFrom [(-10 : Int) + ((t.pdNegR i % 10 : Nat) : Int),
      ((1000 + t.pdBigR i % 4001 : Nat) : Int)] (t.pdPickR i) 0
  let last_updated_date : Int :=
    if t.updCoin i then
      let cap : Nat := if processing_days > 0 then processing_days.toNat else 30
      app_date + ((t.updAfterR i % (cap + 1) : Nat) : Int)
    else app_date - ((1 + t.updBeforeR i % 30 : Nat) : Int)
  { application_id := application_id
    sa_id_number := sa_id
    application_type := application_type
    application_date := app_date
    application_status := application_status
    province := province
    dha_branch_name := dha_branch_name
    branch_code := branch_code
    submission_channel := submission_channel
    processing_days := processing_days
    last_updated_date := last_updated_date }

/-- generate_application_data (lines 429-545). -/
def generate_application_data (numRows : Nat) (pop : List PopRow) (t : AppTape)
    (now : Int) : List AppRow :=
  let popIds := pop.map PopRow.sa_id_number
  let idProv := popIds.zip (pop.map PopRow.province)
  let bcs := branch_codes t
  (List.range numRows).map (mkAppRow popIds idProv bcs t now)

/-- A DataFrame cell: string, integer (model day numbers and processing day
counts) or missing (None / NaT). -/
inductive Cell where
  | str (v : String)
  | int (v : Int)
  | null
  deriving DecidableEq, Inhabited

/-- A DataFrame: named columns and rows of cells aligned with them. -/
structure DataFrame where
  cols : List String
  rows : List (List Cell)
  deriving DecidableEq, Inhabited

/-- The 11 columns of the applications table. -/
def appCols : List String :=
  ["application_id", "sa_id_number", "application_type", "application_date",
   "application_status", "province", "dha_branch_name", "branch_code",
   "submission_channel", "processing_days", "last_updated_date"]

/-- The cells of one application row, in appCols order. -/
def appRowCells (r : AppRow) : List Cell :=
  [Cell.str r.application_id, Cell.str r.sa_id_number,
   Cell.str r.application_type, Cell.int r.application_date,
   (match r.application_status with | some s => Cell.str s | none => Cell.null),
   Cell.str r.province, Cell.str r.dha_branch_name, Cell.str r.branch_code,
   Cell.str r.submission_channel, Cell.int r.processing_days,
   Cell.int r.last_updated_date]

/-- The applications DataFrame handed to the injection stage. -/
def appDF (rows : List AppRow) : DataFrame :=
  { cols := appCols, rows := rows.map appRowCells }

/-- Position of a column name. -/
def colPos (cols : List String) (c : String) : Nat :=
  cols.findIdx (fun x => x == c)

/-- df.at[r, c] read access. -/
def getCell (df : DataFrame) (r : Nat) (c : String) : Cell :=
  (df.rows.getD r []).getD (colPos df.cols c) Cell.null

/-- df.at[r, c] = v write access. -/
def setCell (df : DataFrame) (r : Nat) (c : String) (v : Cell) : DataFrame :=
  { df with rows := df.rows.set r ((df.rows.getD r []).set (colPos df.cols c) v) }

/-- Oracle tape for one inject_application_quality_issues call. -/
structure InjTape where
  sampleDupA : Nat → Nat
  sampleMissS : Nat → Nat
  mismIdxR : Nat → Nat
  mismProvR : Nat → Nat
  mismBranchR : Nat → Nat
  deriving Inhabited

/-- The five statistics returned by inject_application_quality_issues. -/
structure AppIssues where
  duplicate_applications : Nat
  missing_status : Nat
  province_mismatches : Nat
  invalid_processing_days : Nat
  invalid_dates : Nat
  deriving DecidableEq, Inhabited

/-- duplicate_indices of the first injection pass (line 576). -/
def injDupSel (df : DataFrame) (dr : Rate) (t : InjTape) : List Nat :=
  let n := df.rows.length
  let c := rateCount n dr
  if c > 0 then sampleIndices n (min c n) t.sampleDupA else []

/-- The first pass (lines 574-582): count sampled rows whose sa_id_number
occurs in more than one row; the table is not modified. -/
def injDupCount (df : DataFrame) (idxs : List Nat) : Nat :=
  (idxs.filter (fun idx =>
    let sa := getCell df idx "sa_id_number"
    1 < (df.rows.filter
      (fun r => r.getD (colPos df.cols "sa_id_number") Cell.null == sa)).length)).length

/-- status_indices (line 586): rows with non-missing application_status. -/
def statusIdxs (df : DataFrame) : List Nat :=
  (List.range df.rows.length).filter
    (fun i => getCell df i "application_status" ≠ Cell.null)

/-- missing_indices of the second pass (line 588): a without-replacement
sample from status_indices, clamped to its size. -/
def injMissSel (df : DataFrame) (mr : Rate) (t : InjTape) : List Nat :=
  let si := statusIdxs df
  let c := rateCount df.rows.length mr
  if si.length > 0 then sampleAux t.sampleMissS (min c si.length) si 0 else []

/-- The second pass loop (lines 589-591): null each selected status and
increment the counter. -/
def injMissApply : DataFrame → List Nat → DataFrame × Nat
  | df, [] => (df, 0)
  | df, idx :: rest =>
    let df2 := setCell df idx "application_status" Cell.null
    let r := injMissApply df2 rest
    (r.1, r.2 + 1)

/-- String payload of a cell (the province and branch cells are strings). -/
def cellStr : Cell → String
  | .str v => v
  | _ => ""

/-- The row indices drawn by the third pass (line 596): one independent
randint(0, num_rows - 1) per iteration, i.e. drawn WITH replacement. -/
def injMismatchIdxs (n num : Nat) (t : InjTape) : List Nat :=
  (List.range num).map (fun s => t.mismIdxR s % n)

/-- One iteration of the third pass (lines 595-609). -/
def injMismStep (t : InjTape) (df : DataFrame) (step idx : Nat) :
    DataFrame × Bool :=
  let province := cellStr (getCell df idx "province")
  let branch := cellStr (getCell df idx "dha_branch_name")
  if (dhaGet province).isSome ∧ branch ∉ (dhaGet province).getD [] then
    (df, true)
  else
    let others := SA_PROVINCES.filter (fun p => p ≠ province)
    if others ≠ [] then
      let op := chooseFrom others (t.mismProvR step) "Gauteng"
      let nb := chooseFrom ((dhaGet op).getD []) (t.mismBranchR step) ""
      (setCell df idx "dha_branch_name" (Cell.str nb), true)
    else (df, false)

/-- The third pass loop over the enumerated drawn indices. -/
def injMismApply (t : InjTape) : DataFrame → List (Nat × Nat) → DataFrame × Nat
  | df, [] => (df, 0)
  | df, si :: rest =>
    let r1 := injMismStep t df si.1 si.2
    let r2 := injMismApply t r1.1 rest
    (r2.1, r2.2 + (if r1.2 then 1 else 0))

/-- processing_days defect predicate of the fourth pass (line 612):
negative or above 100. -/
def pdBad : Cell → Bool
  | .int v => v < 0 || v > 100
  | _ => false

/-- df[new] = pd.to_datetime(df[src]): appends a column copying src (the
to_datetime conversion is the identity on the model day numbers). -/
def addColCopy (df : DataFrame) (newName srcName : String) : DataFrame :=
  let p := colPos df.cols srcName
  { cols := df.cols ++ [newName],
    rows := df.rows.map (fun r => r ++ [r.getD p Cell.null]) }

/-- updated < app comparison of the fifth pass (line 618). -/
def dateLtB : Cell → Cell → Bool
  | .int a, .int b => a < b
  | _, _ => false

/-- df.drop(columns=names): remove the named columns and the cells aligned
with them. -/
def dropCols (df : DataFrame) (names : List String) : DataFrame :=
  { cols := df.cols.filter (fun c => !names.contains c),
    rows := df.rows.map (fun r =>
      ((df.cols.zip r).filter (fun p => !names.contains p.1)).map Prod.snd) }

/-- inject_application_quality_issues (lines 548-622). -/
def inject_application_quality_issues (df : DataFrame) (dr mr ir : Rate)
    (t : InjTape) : DataFrame × AppIssues :=
  let n := df.rows.length
  let dupCount := injDupCount df (injDupSel df dr t)
  let missSel := injMissSel df mr t
  let r2 := injMissApply df missSel
  let df2 := r2.1
  let numMism := rateCount n ir
  let r3 := injMismApply t df2 (injMismatchIdxs n numMism t).enum
  let df3 := r3.1
  let pdCount := (df3.rows.filter
    (fun r => pdBad (r.getD (colPos df3.cols "processing_days") Cell.null))).length
  let df4 := addColCopy (addColCopy df3 "app_date" "application_date")
    "updated_date" "last_updated_date"
  let dateCount := (df4.rows.filter (fun r =>
    dateLtB (r.getD (colPos df4.cols "updated_date") Cell.null)
      (r.getD (colPos df4.cols "app_date") Cell.null))).length
  let df5 := dropCols df4 ["app_date", "updated_date"]
  (df5, { duplicate_applications := dupCount, missing_status := r2.2,
          province_mismatches := r3.2, invalid_processing_days := pdCount,
          invalid_dates := dateCount })

/-- Row/column alignment of a DataFrame. -/
def Aligned (df : DataFrame) : Prop :=
  ∀ r ∈ df.rows, r.length = df.cols.length

/-- The table after the two modifying passes of
inject_application_quality_issues; the remaining work (the two scans and the
helper column add/drop) leaves the table unchanged. -/
def injAfterPasses (df : DataFrame) (mr ir : Rate) (t : InjTape) : DataFrame :=
  (injMismApply t (injMissApply df (injMissSel df mr t)).1
    (injMismatchIdxs df.rows.length (rateCount df.rows.length ir) t).enum).1

/-- A one row applications table whose application_status is already missing
before injection. -/
def dfC7 : DataFrame :=
  { cols := appCols,
    rows := [[Cell.str "APP100001", Cell.str "4401010000052", Cell.str "ID Card",
      Cell.int 0, Cell.null, Cell.str "Gauteng", Cell.str "Pretoria",
      Cell.str "0001", Cell.str "Branch", Cell.int 10, Cell.int 0]] }

/-- A tape taking the valid-ordering branch for every record. -/
def updTrueTape : AppTape := { (default : AppTape) with updCoin := fun _ => true }

/-- The without-replacement selection contract of the Anomaly Planner:
exactly min(count, n) distinct indices below n, empty at zero count. -/
def SelSpec (sel : List Nat) (count n : Nat) : Prop :=
  sel.length = min count n ∧ sel.Nodup ∧ (∀ x ∈ sel, x < n) ∧
    (count = 0 → sel = [])

/-- The same contract over an arbitrary pool (the missing-status draw). -/
def SelSpecPool (sel pool : List Nat) (count : Nat) : Prop :=
  sel.length = min count pool.length ∧ sel.Nodup ∧ (∀ x ∈ sel, x ∈ pool)

/-- The sa_id_number column of an applications DataFrame. -/
def appIdColumn (df : DataFrame) : List Cell :=
  df.rows.map (fun r => r.getD (colPos df.cols "sa_id_number") Cell.null)

/-- The sa_id_number column of the registry, as cell values. -/
def popIdColumn (pop : List PopRow) : List Cell :=
  (pop.map PopRow.sa_id_number).map Cell.str

/-- The orphan computation of print_summary_statistics (lines 816-820):
set(population unique ids), set(application unique ids), set difference,
length.  unique() is modelled by dedup, set() by toFinset. -/
def print_orphan_count (pop : List PopRow) (df : DataFrame) : Nat :=
  let pop_ids := (popIdColumn pop).dedup.toFinset
  let app_ids := (appIdColumn df).dedup.toFinset
  (app_ids \ pop_ids).card

/-- The full pipeline as run by main: registry generation, application
generation against that registry, and application issue injection. -/
def runPipeline (nPop nApp : Nat) (dr mr ir : Rate) (pt : PopTape)
    (ta : AppTape) (it : InjTape) (now : Int) :
    List PopRow × DataFrame × AppIssues :=
  let pop := generate_population_data nPop dr mr ir pt now
  let app := generate_application_data nApp pop ta now
  let r := inject_application_quality_issues (appDF app) dr mr ir it
  (pop, r.1, r.2)

/-- A tape whose created-date draw exposes the datetime.now() dependence. -/
def popTapeC4 : PopTape := { (default : PopTape) with createdR := fun _ => 2 }

theorem calculate_luhn_checksum_lt_10 (ds : List Nat) :
    calculate_luhn_checksum ds < 10 := by
  unfold calculate_luhn_checksum
  omega

theorem charDigit_digitChar (n : Nat) : charDigit (digitChar n) = n % 10 := by
  have h : n % 10 < 10 := Nat.mod_lt _ (by norm_num)
  unfold digitChar charDigit
  generalize hk : n % 10 = k at h ⊢
  interval_cases k <;> decide

theorem digitChar_mod (n : Nat) : digitChar (n % 10) = digitChar n := by
  unfold digitChar
  congr 1
  omega

theorem idBaseDigits_lt_10 (y m d rSeq rAge : Nat) :
    ∀ x ∈ idBaseDigits y m d rSeq rAge, x < 10 := by
  intro x hx
  simp only [idBaseDigits, List.mem_cons, List.not_mem_nil, or_false] at hx
  rcases hx with h | h | h | h | h | h | h | h | h | h | h | h <;> subst h <;> omega

theorem idBaseDigits_length (y m d rSeq rAge : Nat) :
    (idBaseDigits y m d rSeq rAge).length = 12 := rfl

theorem digitsOfChars_map_digitChar (l : List Nat) (h : ∀ x ∈ l, x < 10) :
    digitsOfChars (l.map digitChar) = l := by
  induction l with
  | nil => rfl
  | cons a t ih =>
    have ha : a < 10 := h a (by simp)
    have ht : ∀ x ∈ t, x < 10 := fun x hx => h x (by simp [hx])
    have h1 : charDigit (digitChar a) = a := by
      rw [charDigit_digitChar, Nat.mod_eq_of_lt ha]
    show digitsOfChars (digitChar a :: t.map digitChar) = a :: t
    simp only [digitsOfChars, List.map_cons, List.cons.injEq]
    exact ⟨h1, ih ht⟩

theorem chooseFrom_mem {α : Type} (l : List α) (r : Nat) (d : α) (h : l ≠ []) :
    chooseFrom l r d ∈ l := by
  have hlen : 0 < l.length := List.length_pos.mpr h
  have hlt : r % l.length < l.length := Nat.mod_lt _ hlen
  unfold chooseFrom
  rw [List.getD_eq_getElem l d hlt]
  exact List.getElem_mem hlt

theorem getElem_not_mem_eraseIdx {α : Type} [DecidableEq α] :
    ∀ (l : List α) (j : Nat) (hj : j < l.length), l.Nodup →
      l[j] ∉ l.eraseIdx j
  | a :: t, 0, _, hn => by
    simp only [List.eraseIdx]
    simpa using (List.nodup_cons.mp hn).1
  | a :: t, j + 1, hj, hn => by
    have ht : t.Nodup := (List.nodup_cons.mp hn).2
    have ha : a ∉ t := (List.nodup_cons.mp hn).1
    have hjt : j < t.length := by simpa using Nat.lt_of_succ_lt_succ hj
    have hmem : t[j] ∈ t := List.getElem_mem hjt
    simp only [List.eraseIdx, List.getElem_cons_succ, List.mem_cons]
    push_neg
    refine ⟨fun he => ha (he ▸ hmem), getElem_not_mem_eraseIdx t j hjt ht⟩

theorem sampleAux_length (t : Nat → Nat) :
    ∀ (k : Nat) (pool : List Nat) (step : Nat),
      (sampleAux t k pool step).length = min k pool.length
  | 0, _, _ => by simp [sampleAux]
  | k + 1, [], _ => by simp [sampleAux]
  | k + 1, a :: pool, step => by
    have hpos : 0 < (a :: pool).length := by simp
    have hj : t step % (a :: pool).length < (a :: pool).length := Nat.mod_lt _ hpos
    have he : ((a :: pool).eraseIdx (t step % (a :: pool).length)).length
        = (a :: pool).length - 1 := List.length_eraseIdx_of_lt hj
    simp only [List.length_cons] at he hj ⊢
    simp only [sampleAux, List.length_cons]
    rw [sampleAux_length t k _ (step + 1), he]
    omega

theorem sampleAux_subset (t : Nat → Nat) :
    ∀ (k : Nat) (pool : List Nat) (step : Nat),
      ∀ x ∈ sampleAux t k pool step, x ∈ pool
  | 0, _, _ => by simp [sampleAux]
  | k + 1, [], _ => by simp [sampleAux]
  | k + 1, a :: pool, step => by
    intro x hx
    have hpos : 0 < (a :: pool).length := by simp
    have hj : t step % (a :: pool).length < (a :: pool).length := Nat.mod_lt _ hpos
    simp only [sampleAux, List.mem_cons] at hx
    rcases hx with hx | hx
    · rw [hx, List.getD_eq_getElem _ 0 hj]
      exact List.getElem_mem hj
    · exact List.eraseIdx_subset _ _ (sampleAux_subset t k _ (step + 1) x hx)

theorem sampleAux_nodup (t : Nat → Nat) :
    ∀ (k : Nat) (pool : List Nat) (step : Nat), pool.Nodup →
      (sampleAux t k pool step).Nodup
  | 0, _, _, _ => by simp [sampleAux]
  | k + 1, [], _, _ => by simp [sampleAux]
  | k + 1, a :: pool, step, hn => by
    have hpos : 0 < (a :: pool).length := by simp
    have hj : t step % (a :: pool).length < (a :: pool).length := Nat.mod_lt _ hpos
    simp only [sampleAux, List.nodup_cons]
    constructor
    · intro hmem
      have hsub := sampleAux_subset t k _ (step + 1) _ hmem
      rw [List.getD_eq_getElem _ 0 hj] at hsub
      exact getElem_not_mem_eraseIdx _ _ hj hn hsub
    · exact sampleAux_nodup t k _ (step + 1) (List.Nodup.eraseIdx _ hn)

theorem sampleIndices_length (n k : Nat) (t : Nat → Nat) :
    (sampleIndices n k t).length = min k n := by
  rw [sampleIndices, sampleAux_length, List.length_range]

theorem sampleIndices_lt (n k : Nat) (t : Nat → Nat) :
    ∀ x ∈ sampleIndices n k t, x < n := by
  intro x hx
  have := sampleAux_subset t k (List.range n) 0 x hx
  exact List.mem_range.mp this

theorem sampleIndices_nodup (n k : Nat) (t : Nat → Nat) :
    (sampleIndices n k t).Nodup :=
  sampleAux_nodup t k (List.range n) 0 (List.nodup_range n)

/-- The computed count is exactly the floor of the rational product
num_rows * rate, as the spec states it. -/
theorem rateCount_eq_floor (n : Nat) (r : Rate) (h : 0 < r.den) :
    rateCount n r = Nat.floor ((n : ℚ) * ((r.num : ℚ) / (r.den : ℚ))) := by
  have hcast : (n : ℚ) * ((r.num : ℚ) / (r.den : ℚ))
      = ((n * r.num : Nat) : ℚ) / ((r.den : Nat) : ℚ) := by
    push_cast
    ring
  rw [rateCount, hcast, Nat.floor_div_nat, Nat.floor_natCast]

theorem genIdRetry_eq_attempt (taken : List String) (mk : Nat → String) :
    ∀ (fuel k : Nat), ∃ j, genIdRetry taken mk k fuel = mk j
  | 0, k => ⟨k, rfl⟩
  | fuel + 1, k => by
    by_cases h : mk k ∈ taken
    · simpa [genIdRetry, h] using genIdRetry_eq_attempt taken mk fuel (k + 1)
    · exact ⟨k, by simp [genIdRetry, h]⟩

theorem getD_append_length {α : Type} (l : List α) (c dflt : α) :
    (l ++ [c]).getD l.length dflt = c := by
  induction l with
  | nil => rfl
  | cons a t ih => simpa using ih

theorem getD_set_ne {α : Type} (l : List α) (i j : Nat) (a dflt : α)
    (h : i ≠ j) : (l.set i a).getD j dflt = l.getD j dflt := by
  induction l generalizing i j with
  | nil => simp
  | cons b t ih =>
    cases i with
    | zero =>
      cases j with
      | zero => exact absurd rfl h
      | succ j => simp [List.set]
    | succ i =>
      cases j with
      | zero => simp [List.set]
      | succ j =>
        simp only [List.set, List.getD_cons_succ]
        exact ih i j (fun he => h (by rw [he]))

theorem generate_sa_id_take6 (y m d rSeq rAge : Nat) :
    (generate_sa_id_number y m d rSeq rAge).data.take 6
      = yymmddOfDateStr (dateStr y m d) := by
  simp only [generate_sa_id_number, idBaseDigits, dateStr, yymmddOfDateStr, pad4,
    pad2, List.map_cons, List.cons_append, List.take_succ_cons, List.take_zero,
    List.getD_cons_succ, List.getD_cons_zero, List.cons.injEq, and_true]
  refine ⟨?_, ?_, ?_, ?_, ?_, ?_⟩ <;> (unfold digitChar; congr 1; omega)

theorem generate_sa_id_data (y m d rSeq rAge : Nat) :
    (generate_sa_id_number y m d rSeq rAge).data
      = (idBaseDigits y m d rSeq rAge
          ++ [calculate_luhn_checksum (idBaseDigits y m d rSeq rAge)]).map digitChar
      := rfl

theorem generate_sa_id_luhn (y m d rSeq rAge : Nat) :
    (generate_sa_id_number y m d rSeq rAge).data.length = 13 ∧
    (generate_sa_id_number y m d rSeq rAge).data.getD 12 ' '
      = digitChar (calculate_luhn_checksum
          (digitsOfChars ((generate_sa_id_number y m d rSeq rAge).data.take 12))) := by
  have hbase := idBaseDigits_length y m d rSeq rAge
  have hlt := idBaseDigits_lt_10 y m d rSeq rAge
  rw [generate_sa_id_data]
  set base := idBaseDigits y m d rSeq rAge with hb
  have hlen : (base.map digitChar).length = 12 := by
    rw [List.length_map, hbase]
  constructor
  · simp [hbase]
  · rw [List.map_append, List.take_left' hlen]
    simp only [List.map_cons, List.map_nil]
    rw [← hlen, getD_append_length]
    rw [digitsOfChars_map_digitChar base hlt]

theorem popRowsFrom_length (n : Nat) (dr mr ir : Rate) (t : PopTape) (now : Int) :
    ∀ (remaining i : Nat) (taken : List String),
      (popRowsFrom n dr mr ir t now remaining i taken).length = remaining
  | 0, _, _ => rfl
  | remaining + 1, i, taken => by
    simp only [popRowsFrom, List.length_cons]
    rw [popRowsFrom_length n dr mr ir t now remaining]

theorem popRowsFrom_getD (n : Nat) (dr mr ir : Rate) (t : PopTape) (now : Int) :
    ∀ (remaining i : Nat) (taken : List String) (j : Nat), j < remaining →
      ∃ tk, (popRowsFrom n dr mr ir t now remaining i taken).getD j default
        = mkPopRow n dr mr ir t now tk (i + j)
  | 0, _, _, _, hj => absurd hj (Nat.not_lt_zero _)
  | remaining + 1, i, taken, 0, _ => ⟨taken, by simp [popRowsFrom]⟩
  | remaining + 1, i, taken, j + 1, hj => by
    obtain ⟨tk, htk⟩ := popRowsFrom_getD n dr mr ir t now remaining (i + 1)
      ((mkPopRow n dr mr ir t now taken i).sa_id_number :: taken) j
      (Nat.lt_of_succ_lt_succ hj)
    refine ⟨tk, ?_⟩
    simp only [popRowsFrom, List.getD_cons_succ]
    rw [htk]
    congr 1
    omega

theorem popDupPass_length (t : PopTape) (n : Nat) :
    ∀ (ds : List Nat) (rows : List PopRow) (step : Nat),
      (popDupPass t n rows ds step).length = rows.length
  | [], _, _ => rfl
  | d :: rest, rows, step => by
    simp only [popDupPass]
    rw [popDupPass_length t n rest, List.length_set]

theorem popDupPass_getD_not_mem (t : PopTape) (n : Nat) :
    ∀ (ds : List Nat) (rows : List PopRow) (step : Nat) (i : Nat), i ∉ ds →
      (popDupPass t n rows ds step).getD i default = rows.getD i default
  | [], _, _, _, _ => rfl
  | d :: rest, rows, step, i, hi => by
    have hid : i ≠ d := fun he => hi (he ▸ List.mem_cons_self d rest)
    have hir : i ∉ rest := fun hm => hi (List.mem_cons_of_mem d hm)
    simp only [popDupPass]
    rw [popDupPass_getD_not_mem t n rest _ _ i hir]
    exact getD_set_ne _ d i _ _ (fun he => hid he.symm)

theorem mkPopRow_dob (n : Nat) (dr mr ir : Rate) (t : PopTape) (now : Int)
    (taken : List String) (i : Nat) :
    (mkPopRow n dr mr ir t now taken i).date_of_birth
      = dateStr (1944 + t.birthY i % 63) (1 + t.birthM i % 12)
          (1 + t.birthD i % 28) := rfl

theorem mkPopRow_sa_id (n : Nat) (dr mr ir : Rate) (t : PopTape) (now : Int)
    (taken : List String) (i : Nat) :
    ∃ k, (mkPopRow n dr mr ir t now taken i).sa_id_number
      = generate_sa_id_number (1944 + t.birthY i % 63) (1 + t.birthM i % 12)
          (1 + t.birthD i % 28) (t.idSeq i k) (t.idAge i k) := by
  have h := genIdRetry_eq_attempt taken
    (fun k => generate_sa_id_number (1944 + t.birthY i % 63) (1 + t.birthM i % 12)
      (1 + t.birthD i % 28) (t.idSeq i k) (t.idAge i k)) (taken.length + 1) 0
  simpa [mkPopRow] using h

/-- C1 (amended): for every record index not selected by the duplicate
overwrite pass, the first 6 characters of the generated sa_id_number equal the
YYMMDD encoding of that same record's stored date_of_birth, whatever the
configuration, tape and clock. -/
theorem pop_id_prefix_encodes_dob (n : Nat) (dr mr ir : Rate) (t : PopTape)
    (now : Int) (i : Nat) (hi : i < n) (hd : i ∉ popDupList n dr t) :
    ((generate_population_data n dr mr ir t now).getD i default).sa_id_number.data.take 6
      = yymmddOfDateStr
          ((generate_population_data n dr mr ir t now).getD i default).date_of_birth := by
  unfold generate_population_data
  rw [popDupPass_getD_not_mem t n _ _ _ i hd]
  unfold popRowsPre
  obtain ⟨tk, htk⟩ := popRowsFrom_getD n dr mr ir t now n 0 [] i hi
  rw [Nat.zero_add] at htk
  rw [htk, mkPopRow_dob]
  obtain ⟨k, hk⟩ := mkPopRow_sa_id n dr mr ir t now tk i
  rw [hk, generate_sa_id_take6]

theorem pop_id_prefix_encodes_dob_witness :
    (0 < 1 ∧ (0 : Nat) ∉ popDupList 1 rate0 default) ∧
    ((generate_population_data 1 rate0 rate0 rate0 default 800000).getD 0 default).sa_id_number.data.take 6
      = yymmddOfDateStr
          ((generate_population_data 1 rate0 rate0 rate0 default 800000).getD 0 default).date_of_birth :=
  ⟨⟨by decide, by decide⟩,
    pop_id_prefix_encodes_dob 1 rate0 rate0 rate0 default 800000 0 (by decide) (by decide)⟩

/-- C1 counterexample: with 2 records, duplicate_rate 1/2 and the tape above,
record 1 is overwritten with the identifier of record 0, whose birth day
differs, so the first 6 digits of its identifier do not encode its own
date_of_birth. -/
theorem pop_id_prefix_dup_counterexample :
    ((generate_population_data 2 ⟨1, 2⟩ rate0 rate0 popTapeC1 800000).getD 1
        default).sa_id_number.data.take 6
      ≠ yymmddOfDateStr
          ((generate_population_data 2 ⟨1, 2⟩ rate0 rate0 popTapeC1 800000).getD 1
            default).date_of_birth := by
  decide

/-- C2: for every record index not selected by the duplicate overwrite pass,
the stored identifier has 13 digits and recomputing the Luhn style checksum
from its first 12 digits reproduces the 13th digit exactly. -/
theorem pop_id_luhn_roundtrip (n : Nat) (dr mr ir : Rate) (t : PopTape)
    (now : Int) (i : Nat) (hi : i < n) (hd : i ∉ popDupList n dr t) :
    ((generate_population_data n dr mr ir t now).getD i default).sa_id_number.data.length = 13 ∧
    ((generate_population_data n dr mr ir t now).getD i default).sa_id_number.data.getD 12 ' '
      = digitChar (calculate_luhn_checksum (digitsOfChars
          (((generate_population_data n dr mr ir t now).getD i default).sa_id_number.data.take 12))) := by
  unfold generate_population_data
  rw [popDupPass_getD_not_mem t n _ _ _ i hd]
  unfold popRowsPre
  obtain ⟨tk, htk⟩ := popRowsFrom_getD n dr mr ir t now n 0 [] i hi
  rw [Nat.zero_add] at htk
  rw [htk]
  obtain ⟨k, hk⟩ := mkPopRow_sa_id n dr mr ir t now tk i
  rw [hk]
  exact generate_sa_id_luhn _ _ _ _ _

theorem pop_id_luhn_roundtrip_witness :
    (0 < 1 ∧ (0 : Nat) ∉ popDupList 1 rate0 default) ∧
    (((generate_population_data 1 rate0 rate0 rate0 default 800000).getD 0 default).sa_id_number.data.length = 13 ∧
     ((generate_population_data 1 rate0 rate0 rate0 default 800000).getD 0 default).sa_id_number.data.getD 12 ' '
       = digitChar (calculate_luhn_checksum (digitsOfChars
           (((generate_population_data 1 rate0 rate0 rate0 default 800000).getD 0 default).sa_id_number.data.take 12)))) :=
  ⟨⟨by decide, by decide⟩,
    pop_id_luhn_roundtrip 1 rate0 rate0 rate0 default 800000 0 (by decide) (by decide)⟩

theorem getD_set_self {α : Type} (l : List α) (i : Nat) (a dflt : α)
    (h : i < l.length) : (l.set i a).getD i dflt = a := by
  induction l generalizing i with
  | nil => simp at h
  | cons b t ih =>
    cases i with
    | zero => rfl
    | succ i =>
      simp only [List.set, List.getD_cons_succ]
      exact ih i (by simpa using Nat.lt_of_succ_lt_succ h)

theorem getD_map {α β : Type} (f : α → β) (l : List α) (i : Nat) (d : α) :
    (l.map f).getD i (f d) = f (l.getD i d) := by
  induction l generalizing i with
  | nil => rfl
  | cons a t ih =>
    cases i with
    | zero => rfl
    | succ i => simpa using ih i

theorem popDupPass_map_sa_id (t : PopTape) (n : Nat) :
    ∀ (ds : List Nat) (rows : List PopRow) (step : Nat),
      (popDupPass t n rows ds step).map PopRow.sa_id_number
        = dupPassCol t.dupSrc n (rows.map PopRow.sa_id_number) ds step
  | [], _, _ => rfl
  | d :: rest, rows, step => by
    simp only [popDupPass, dupPassCol]
    rw [popDupPass_map_sa_id t n rest _ (step + 1), List.map_set]
    congr 2
    have hdflt : (default : PopRow).sa_id_number = (default : String) := rfl
    rw [← hdflt, ← getD_map PopRow.sa_id_number rows]

/-- The list of source candidates [idx for idx in all_indices if idx != d]
is range d followed by the shifted range above d. -/
theorem range_filter_ne (n d : Nat) (hd : d < n) :
    (List.range n).filter (fun idx => idx ≠ d)
      = List.range d ++ (List.range (n - (d + 1))).map ((d + 1) + ·) := by
  have hsplit : n = (d + 1) + (n - (d + 1)) := by omega
  have h1 : (List.range (d + 1)).filter (fun idx => decide (idx ≠ d)) = List.range d := by
    rw [List.range_succ, List.filter_append]
    have h2 : (List.range d).filter (fun idx => decide (idx ≠ d)) = List.range d :=
      List.filter_eq_self.mpr (fun a ha => by
        simp only [decide_eq_true_eq]
        exact Nat.ne_of_lt (List.mem_range.mp ha))
    simp only [h2, List.filter_cons, List.filter_nil, decide_eq_true_eq]
    simp
  have h3 : ((List.range (n - (d + 1))).map ((d + 1) + ·)).filter
      (fun idx => decide (idx ≠ d)) = (List.range (n - (d + 1))).map ((d + 1) + ·) :=
    List.filter_eq_self.mpr (fun a ha => by
      simp only [List.mem_map, List.mem_range] at ha
      obtain ⟨x, _, hx⟩ := ha
      simp only [decide_eq_true_eq]
      omega)
  conv_lhs => rw [hsplit, List.range_add, List.filter_append, h1, h3]

theorem dupCandidates_length (n d : Nat) (hd : d < n) :
    ((List.range n).filter (fun idx => idx ≠ d)).length = n - 1 := by
  rw [range_filter_ne n d hd]
  simp only [List.length_append, List.length_map, List.length_range]
  omega

theorem dupCandidates_getD (n d j : Nat) (hd : d < n) (hj : j < n - 1) :
    ((List.range n).filter (fun idx => idx ≠ d)).getD j 0
      = if j < d then j else j + 1 := by
  rw [range_filter_ne n d hd]
  by_cases h : j < d
  · rw [if_pos h]
    have hjlen : j < (List.range d).length := by simpa using h
    rw [List.getD_append _ _ _ _ hjlen, List.getD_eq_getElem _ _ hjlen]
    simp
  · rw [if_neg h]
    have hge : (List.range d).length ≤ j := by simpa using Nat.le_of_not_lt h
    rw [List.getD_append_right _ _ _ _ hge]
    have hlt : j - (List.range d).length
        < ((List.range (n - (d + 1))).map ((d + 1) + ·)).length := by
      simp only [List.length_map, List.length_range, List.length_range] at *
      omega
    rw [List.getD_eq_getElem _ _ hlt]
    simp only [List.getElem_map, List.getElem_range, List.length_range]
    omega

theorem dupSrcIdx_eq (n d r : Nat) (hd : d < n) (hn : 2 ≤ n) :
    dupSrcIdx n d r
      = if r % (n - 1) < d then r % (n - 1) else r % (n - 1) + 1 := by
  unfold dupSrcIdx chooseFrom
  rw [dupCandidates_length n d hd]
  exact dupCandidates_getD n d _ hd (Nat.mod_lt _ (by omega))

theorem dupSrcIdx_ne_self (n d r : Nat) (hd : d < n) (hn : 2 ≤ n) :
    dupSrcIdx n d r ≠ d := by
  rw [dupSrcIdx_eq n d r hd hn]
  by_cases h : r % (n - 1) < d <;> simp [h] <;> omega

theorem dupSrcIdx_lt (n d r : Nat) (hd : d < n) (hn : 2 ≤ n) :
    dupSrcIdx n d r < n := by
  have hm : r % (n - 1) < n - 1 := Nat.mod_lt _ (by omega)
  rw [dupSrcIdx_eq n d r hd hn]
  by_cases h : r % (n - 1) < d <;> simp [h] <;> omega

theorem dupPassCol_spec {α : Type} [Inhabited α] [DecidableEq α]
    (pick : Nat → Nat) (ids0 : List α) (n : Nat) (hn2 : 2 ≤ n) (D : List Nat)
    (hDlt : ∀ d ∈ D, d < n) :
    ∀ (ds : List Nat) (step : Nat) (c : List α), c.length = n →
      (∀ x ∈ ds, x ∈ D) →
      (∀ k, k < ds.length → dupSrcIdx n (ds.getD k 0) (pick (step + k)) ∉ D) →
      (∀ i, i < n → i ∉ D → c.getD i default = ids0.getD i default) →
      (∀ i, i < n →
        (i ∈ ds ∨ ∃ j, j < n ∧ j ∉ D ∧ c.getD i default = ids0.getD j default)) →
      (dupPassCol pick n c ds step).length = n ∧
      (∀ i, i < n → i ∉ D →
        (dupPassCol pick n c ds step).getD i default = c.getD i default) ∧
      (∀ i, i < n → ∃ j, j < n ∧ j ∉ D ∧
        (dupPassCol pick n c ds step).getD i default = ids0.getD j default)
  | [], step, c, hc, _, _, _, hinv => by
    refine ⟨hc, fun i _ _ => rfl, fun i hi => ?_⟩
    rcases hinv i hi with h | h
    · exact absurd h (List.not_mem_nil i)
    · exact h
  | d :: rest, step, c, hc, hds, hsrc, hfix, hinv => by
    have hdD : d ∈ D := hds d (List.mem_cons_self d rest)
    have hdn : d < n := hDlt d hdD
    have hs0 := hsrc 0 (by simp)
    rw [List.getD_cons_zero, Nat.add_zero] at hs0
    set s := dupSrcIdx n d (pick step) with hsdef
    have hsn : s < n := dupSrcIdx_lt n d (pick step) hdn hn2
    have hsd : s ≠ d := fun he => hs0 (he ▸ hdD)
    set c2 := c.set d (c.getD s default) with hc2def
    have hc2len : c2.length = n := by rw [hc2def, List.length_set, hc]
    have hval : c2.getD d default = ids0.getD s default := by
      rw [hc2def, getD_set_self c d _ default (by omega)]
      exact hfix s hsn hs0
    have hkeep : ∀ i, i ≠ d → c2.getD i default = c.getD i default :=
      fun i hi => getD_set_ne c d i _ default (fun he => hi he.symm)
    have ih := dupPassCol_spec pick ids0 n hn2 D hDlt rest (step + 1) c2 hc2len
      (fun x hx => hds x (List.mem_cons_of_mem d hx))
      (fun k hk => by
        have := hsrc (k + 1) (by simpa using Nat.succ_lt_succ hk)
        rwa [List.getD_cons_succ, show step + (k + 1) = step + 1 + k by omega] at this)
      (fun i hi hiD => by
        rw [hkeep i (fun he => hiD (he ▸ hdD))]
        exact hfix i hi hiD)
      (fun i hi => by
        by_cases hid : i = d
        · exact Or.inr ⟨s, hsn, hs0, by rw [hid, hval]⟩
        · rcases hinv i hi with h | h
          · rcases List.mem_cons.mp h with h' | h'
            · exact absurd h' hid
            · exact Or.inl h'
          · obtain ⟨j, hj1, hj2, hj3⟩ := h
            exact Or.inr ⟨j, hj1, hj2, by rw [hkeep i hid, hj3]⟩)
    refine ⟨?_, ?_, ?_⟩
    · simpa only [dupPassCol] using ih.1
    · intro i hi hiD
      have h2 := ih.2.1 i hi hiD
      simp only [dupPassCol]
      rw [← hc2def, h2, hkeep i (fun he => hiD (he ▸ hdD))]
    · intro i hi
      have h3 := ih.2.2 i hi
      simpa only [dupPassCol, ← hc2def] using h3

theorem nodup_getD_inj {α : Type} [Inhabited α] (l : List α) (hl : l.Nodup)
    (i j : Nat) (hi : i < l.length) (hj : j < l.length)
    (h : l.getD i default = l.getD j default) : i = j := by
  rw [List.getD_eq_getElem _ _ hi, List.getD_eq_getElem _ _ hj] at h
  have hinj := List.nodup_iff_injective_get.mp hl
  have : (⟨i, hi⟩ : Fin l.length) = ⟨j, hj⟩ := hinj (by simpa using h)
  simpa using congrArg Fin.val this

theorem dupPassCol_card {α : Type} [Inhabited α] [DecidableEq α]
    (pick : Nat → Nat) (ids0 : List α) (n : Nat) (hn : ids0.length = n)
    (hn2 : 2 ≤ n) (D : List Nat) (hDnd : D.Nodup) (hDlt : ∀ d ∈ D, d < n)
    (hnd : ids0.Nodup)
    (hsrc : ∀ k, k < D.length → dupSrcIdx n (D.getD k 0) (pick k) ∉ D) :
    (dupPassCol pick n ids0 D 0).length = n ∧
    (∀ i, i < n → i ∉ D →
      (dupPassCol pick n ids0 D 0).getD i default = ids0.getD i default) ∧
    (∀ d ∈ D, (dupPassCol pick n ids0 D 0).getD d default ≠ ids0.getD d default) ∧
    (dupPassCol pick n ids0 D 0).dedup.length = n - D.length := by
  have hspec := dupPassCol_spec pick ids0 n hn2 D hDlt D 0 ids0 hn
    (fun x hx => hx) (fun k hk => by simpa using hsrc k hk) (fun i _ _ => rfl)
    (fun i hi => by
      by_cases h : i ∈ D
      · exact Or.inl h
      · exact Or.inr ⟨i, hi, h, rfl⟩)
  obtain ⟨hlen, hfix, hmap⟩ := hspec
  set res := dupPassCol pick n ids0 D 0 with hres
  have hchanged : ∀ d ∈ D, res.getD d default ≠ ids0.getD d default := by
    intro d hd habs
    have hdn : d < n := hDlt d hd
    obtain ⟨j, hj1, hj2, hj3⟩ := hmap d hdn
    have hjd : j ≠ d := fun he => hj2 (he ▸ hd)
    rw [habs] at hj3
    exact hjd (nodup_getD_inj ids0 hnd j d (hn ▸ hj1) (hn ▸ hdn) hj3.symm)
  refine ⟨hlen, hfix, hchanged, ?_⟩
  have hset : res.toFinset
      = ((Finset.range n).filter (fun j => j ∉ D)).image
          (fun j => ids0.getD j default) := by
    ext x
    constructor
    · intro hx
      obtain ⟨i, hi, hix⟩ := List.mem_iff_getElem.mp (List.mem_toFinset.mp hx)
      have hin : i < n := hlen ▸ hi
      obtain ⟨j, hj1, hj2, hj3⟩ := hmap i hin
      rw [List.getD_eq_getElem _ _ hi, hix] at hj3
      refine Finset.mem_image.mpr ⟨j, ?_, hj3.symm⟩
      exact Finset.mem_filter.mpr ⟨Finset.mem_range.mpr hj1, hj2⟩
    · intro hx
      obtain ⟨j, hjmem, hjx⟩ := Finset.mem_image.mp hx
      obtain ⟨hj1, hj2⟩ := Finset.mem_filter.mp hjmem
      have hjn : j < n := Finset.mem_range.mp hj1
      have := hfix j hjn hj2
      rw [List.mem_toFinset, ← hjx, ← this, List.getD_eq_getElem _ _ (hlen ▸ hjn)]
      exact List.getElem_mem _
  have hinj : Set.InjOn (fun j => ids0.getD j default)
      ((Finset.range n).filter (fun j => j ∉ D)) := by
    intro a ha b hb hab
    have han : a < n := Finset.mem_range.mp (Finset.mem_filter.mp ha).1
    have hbn : b < n := Finset.mem_range.mp (Finset.mem_filter.mp hb).1
    exact nodup_getD_inj ids0 hnd a b (hn ▸ han) (hn ▸ hbn) hab
  have hDfin : (Finset.range n).filter (fun j => j ∈ D) = D.toFinset := by
    ext x
    simp only [Finset.mem_filter, Finset.mem_range, List.mem_toFinset]
    exact ⟨fun h => h.2, fun h => ⟨hDlt x h, h⟩⟩
  have hcardD : ((Finset.range n).filter (fun j => j ∈ D)).card = D.length := by
    rw [hDfin, List.card_toFinset, hDnd.dedup]
  have hcardS : ((Finset.range n).filter (fun j => j ∉ D)).card = n - D.length := by
    have hsum : ((Finset.range n).filter (fun j => j ∈ D)).card
        + ((Finset.range n).filter (fun j => ¬ j ∈ D)).card
        = (Finset.range n).card :=
      Finset.filter_card_add_filter_neg_card_eq_card (fun j => j ∈ D)
    rw [Finset.card_range] at hsum
    rw [hcardD] at hsum
    omega
  rw [← List.card_toFinset, hset, Finset.card_image_of_injOn hinj, hcardS]

/-- C6: for the 10000 row, duplicate_rate 0.02 configuration the computed
duplicate count is exactly 200; for every tape the pre-selected duplicate
index set has exactly 200 distinct members of range 10000, and the pass walks
them in increasing order (popDupList); the pass changes only those 200 rows,
every chosen source index differs from the overwritten index, and when no
overwritten row is itself used as a source (the no-incidental-collision
condition) the final column has exactly 10000 - 200 = 9800 distinct values.
The column view is tied to generate_population_data by popDupPass_map_sa_id. -/
theorem duplicate_pass_10000 {α : Type} [Inhabited α] [DecidableEq α]
    (ids : List α) (pick : Nat → Nat) (D : List Nat)
    (hlen : ids.length = 10000) (hnd : ids.Nodup) (hDnd : D.Nodup)
    (hDlt : ∀ d ∈ D, d < 10000) (hDcard : D.length = 200)
    (hsrc : ∀ k, k < D.length → dupSrcIdx 10000 (D.getD k 0) (pick k) ∉ D) :
    rateCount 10000 ⟨2, 100⟩ = 200 ∧
    (∀ t : PopTape, (popDupIdx 10000 ⟨2, 100⟩ t).length = 200 ∧
      (popDupIdx 10000 ⟨2, 100⟩ t).Nodup ∧
      ∀ x ∈ popDupIdx 10000 ⟨2, 100⟩ t, x < 10000) ∧
    (∀ d ∈ D, ∀ r, dupSrcIdx 10000 d r ≠ d) ∧
    (∀ i, i < 10000 → i ∉ D →
      (dupPassCol pick 10000 ids D 0).getD i default = ids.getD i default) ∧
    (∀ d ∈ D, (dupPassCol pick 10000 ids D 0).getD d default ≠ ids.getD d default) ∧
    (dupPassCol pick 10000 ids D 0).dedup.length = 10000 - 200 := by
  have hmain := dupPassCol_card pick ids 10000 hlen (by norm_num) D hDnd hDlt hnd hsrc
  refine ⟨rfl, ?_, ?_, ?_, ?_, ?_⟩
  · intro t
    have hcount : rateCount 10000 (⟨2, 100⟩ : Rate) = 200 := rfl
    have : popDupIdx 10000 ⟨2, 100⟩ t = sampleIndices 10000 200 t.sampleDup := by
      unfold popDupIdx
      rw [hcount]
      norm_num
    rw [this]
    refine ⟨?_, sampleIndices_nodup _ _ _, sampleIndices_lt _ _ _⟩
    rw [sampleIndices_length]
    norm_num
  · exact fun d hd r => dupSrcIdx_ne_self 10000 d r (hDlt d hd) (by norm_num)
  · exact hmain.2.1
  · exact hmain.2.2.1
  · rw [hmain.2.2.2, hDcard]

theorem duplicate_pass_10000_witness :
    (dupPassCol (fun _ => 5000) 10000 (List.range 10000) (List.range 200) 0).dedup.length
      = 10000 - 200 :=
  (duplicate_pass_10000 (List.range 10000) (fun _ => 5000) (List.range 200)
    (List.length_range 10000) (List.nodup_range 10000) (List.nodup_range 200)
    (fun d hd => lt_of_lt_of_le (List.mem_range.mp hd) (by norm_num))
    (List.length_range 200)
    (fun k hk => by
      rw [List.length_range] at hk
      have hkd : (List.range 200).getD k 0 = k := by
        rw [List.getD_eq_getElem _ _ (by simpa using hk)]
        simp
      rw [hkd, dupSrcIdx_eq 10000 k 5000 (by omega) (by norm_num)]
      have h5 : 5000 % (10000 - 1) = 5000 := by norm_num
      rw [h5, if_neg (by omega)]
      simp only [List.mem_range]
      omega)).2.2.2.2.2

theorem mem_set_cases {α : Type} (l : List α) (i : Nat) (a : α) :
    ∀ x ∈ l.set i a, x ∈ l ∨ (i < l.length ∧ x = a) := by
  induction l generalizing i with
  | nil => simp
  | cons b t ih =>
    intro x hx
    cases i with
    | zero =>
      rcases List.mem_cons.mp hx with h | h
      · exact Or.inr ⟨by simp, h⟩
      · exact Or.inl (List.mem_cons_of_mem b h)
    | succ i =>
      rcases List.mem_cons.mp hx with h | h
      · exact Or.inl (h ▸ List.mem_cons_self b t)
      · rcases ih i x h with h' | h'
        · exact Or.inl (List.mem_cons_of_mem b h')
        · exact Or.inr ⟨by simpa using Nat.succ_lt_succ h'.1, h'.2⟩

theorem setCell_cols (df : DataFrame) (r : Nat) (c : String) (v : Cell) :
    (setCell df r c v).cols = df.cols := rfl

theorem setCell_rows_length (df : DataFrame) (r : Nat) (c : String) (v : Cell) :
    (setCell df r c v).rows.length = df.rows.length := List.length_set ..

theorem setCell_aligned (df : DataFrame) (r : Nat) (c : String) (v : Cell)
    (h : Aligned df) : Aligned (setCell df r c v) := by
  intro row hrow
  rcases mem_set_cases _ _ _ row hrow with hmem | ⟨hr, heq⟩
  · exact h row hmem
  · have hget : df.rows.getD r [] ∈ df.rows := by
      rw [List.getD_eq_getElem _ _ hr]
      exact List.getElem_mem hr
    rw [heq, setCell_cols, List.length_set]
    exact h _ hget

theorem injMissApply_shape :
    ∀ (idxs : List Nat) (df : DataFrame),
      (injMissApply df idxs).1.cols = df.cols ∧
      (injMissApply df idxs).1.rows.length = df.rows.length ∧
      (Aligned df → Aligned (injMissApply df idxs).1)
  | [], df => ⟨rfl, rfl, fun h => h⟩
  | idx :: rest, df => by
    have ih := injMissApply_shape rest (setCell df idx "application_status" Cell.null)
    refine ⟨?_, ?_, ?_⟩
    · rw [show (injMissApply df (idx :: rest)).1
          = (injMissApply (setCell df idx "application_status" Cell.null) rest).1
          from rfl, ih.1, setCell_cols]
    · rw [show (injMissApply df (idx :: rest)).1
          = (injMissApply (setCell df idx "application_status" Cell.null) rest).1
          from rfl, ih.2.1, setCell_rows_length]
    · intro h
      rw [show (injMissApply df (idx :: rest)).1
          = (injMissApply (setCell df idx "application_status" Cell.null) rest).1
          from rfl]
      exact ih.2.2 (setCell_aligned _ _ _ _ h)

theorem injMismStep_shape (t : InjTape) (df : DataFrame) (step idx : Nat) :
    (injMismStep t df step idx).1.cols = df.cols ∧
    (injMismStep t df step idx).1.rows.length = df.rows.length ∧
    (Aligned df → Aligned (injMismStep t df step idx).1) := by
  unfold injMismStep
  dsimp only
  split
  · exact ⟨rfl, rfl, fun h => h⟩
  · split
    · exact ⟨rfl, setCell_rows_length _ _ _ _, fun h => setCell_aligned _ _ _ _ h⟩
    · exact ⟨rfl, rfl, fun h => h⟩

theorem injMismApply_shape (t : InjTape) :
    ∀ (sis : List (Nat × Nat)) (df : DataFrame),
      (injMismApply t df sis).1.cols = df.cols ∧
      (injMismApply t df sis).1.rows.length = df.rows.length ∧
      (Aligned df → Aligned (injMismApply t df sis).1)
  | [], df => ⟨rfl, rfl, fun h => h⟩
  | si :: rest, df => by
    have hstep := injMismStep_shape t df si.1 si.2
    have ih := injMismApply_shape t rest (injMismStep t df si.1 si.2).1
    have hun : (injMismApply t df (si :: rest)).1
        = (injMismApply t (injMismStep t df si.1 si.2).1 rest).1 := rfl
    refine ⟨?_, ?_, ?_⟩
    · rw [hun, ih.1, hstep.1]
    · rw [hun, ih.2.1, hstep.2.1]
    · intro h
      rw [hun]
      exact ih.2.2 (hstep.2.2 h)

theorem contains_eq_decide_mem {α : Type} [BEq α] [LawfulBEq α]
    [DecidableEq α] (l : List α) (c : α) :
    l.contains c = decide (c ∈ l) := List.elem_eq_mem c l

theorem contains_pair_false (a u c : String) (h1 : c ≠ a) (h2 : c ≠ u) :
    ([a, u].contains c) = false := by
  rw [contains_eq_decide_mem]
  simp [h1, h2]

theorem dropCols_addColCopy2 (df : DataFrame) (a u s1 s2 : String)
    (ha : a ∉ df.cols) (hu : u ∉ df.cols)
    (hrows : Aligned df) :
    dropCols (addColCopy (addColCopy df a s1) u s2) [a, u] = df := by
  obtain ⟨cols0, rows0⟩ := df
  simp only [Aligned] at hrows
  simp only at ha hu
  have hkeep : ∀ c ∈ cols0, (!([a, u].contains c)) = true := by
    intro c hc
    rw [contains_pair_false a u c (fun he => ha (he ▸ hc)) (fun he => hu (he ▸ hc))]
    rfl
  have haa : ([a, u].contains a) = true := by
    rw [contains_eq_decide_mem]
    simp
  have huu : ([a, u].contains u) = true := by
    rw [contains_eq_decide_mem]
    simp
  simp only [dropCols, addColCopy, DataFrame.mk.injEq]
  constructor
  · rw [List.filter_append, List.filter_append]
    rw [List.filter_eq_self.mpr hkeep]
    simp [haa, huu]
  · rw [List.map_map, List.map_map]
    have hid : ∀ r ∈ rows0,
        ((((cols0 ++ [a]) ++ [u]).zip
            ((r ++ [r.getD (colPos cols0 s1) Cell.null])
              ++ [(r ++ [r.getD (colPos cols0 s1) Cell.null]).getD
                    (colPos (cols0 ++ [a]) s2) Cell.null])).filter
          (fun p => !([a, u].contains p.1))).map Prod.snd = r := by
      intro r hr
      have hlen : cols0.length = r.length := (hrows r hr).symm
      have hlen1 : (cols0 ++ [a]).length
          = (r ++ [r.getD (colPos cols0 s1) Cell.null]).length := by
        simp [hlen]
      rw [List.zip_append hlen1, List.zip_append hlen]
      rw [List.filter_append, List.filter_append]
      have hz : (cols0.zip r).filter (fun p => !([a, u].contains p.1))
          = cols0.zip r :=
        List.filter_eq_self.mpr (fun p hp => hkeep p.1 (List.of_mem_zip hp).1)
      rw [hz]
      simp only [List.zip_cons_cons, List.zip_nil_right, List.filter_cons,
        haa, huu, Bool.not_true, List.filter_nil, cond_false, Bool.false_eq_true,
        if_false, List.append_nil]
      rw [List.map_snd_zip cols0 r (le_of_eq hlen.symm)]
    simp only [Function.comp_def]
    rw [List.map_congr_left hid]
    exact List.map_id' rows0

theorem injAfterPasses_shape (df : DataFrame) (mr ir : Rate) (t : InjTape) :
    (injAfterPasses df mr ir t).cols = df.cols ∧
    (injAfterPasses df mr ir t).rows.length = df.rows.length ∧
    (Aligned df → Aligned (injAfterPasses df mr ir t)) := by
  unfold injAfterPasses
  have h1 := injMissApply_shape (injMissSel df mr t) df
  have h2 := injMismApply_shape t
    (injMismatchIdxs df.rows.length (rateCount df.rows.length ir) t).enum
    (injMissApply df (injMissSel df mr t)).1
  exact ⟨by rw [h2.1, h1.1], by rw [h2.2.1, h1.2.1],
    fun h => h2.2.2 (h1.2.2 h)⟩

theorem inject_df_eq (df : DataFrame) (dr mr ir : Rate) (t : InjTape)
    (hcols : df.cols = appCols) (hal : Aligned df) :
    (inject_application_quality_issues df dr mr ir t).1
      = injAfterPasses df mr ir t := by
  have hshape := injAfterPasses_shape df mr ir t
  have hc3 : (injAfterPasses df mr ir t).cols = appCols := by rw [hshape.1, hcols]
  have hal3 : Aligned (injAfterPasses df mr ir t) := hshape.2.2 hal
  show dropCols (addColCopy (addColCopy (injAfterPasses df mr ir t)
      "app_date" "application_date") "updated_date" "last_updated_date")
      ["app_date", "updated_date"] = injAfterPasses df mr ir t
  apply dropCols_addColCopy2
  · rw [hc3]
    decide
  · rw [hc3]
    decide
  · exact hal3

/-- C10: inject_application_quality_issues returns a table with exactly the
same columns as its 11 column input (the temporary app_date and updated_date
helper columns are dropped before return) and the same number of rows;
freedom from argument mutation holds by construction in the functional model,
mirroring the df.copy() at line 562. -/
theorem inject_preserves_shape (df : DataFrame) (dr mr ir : Rate) (t : InjTape)
    (hcols : df.cols = appCols) (hal : Aligned df) :
    (inject_application_quality_issues df dr mr ir t).1.cols = df.cols ∧
    (inject_application_quality_issues df dr mr ir t).1.rows.length
      = df.rows.length := by
  rw [inject_df_eq df dr mr ir t hcols hal]
  have hshape := injAfterPasses_shape df mr ir t
  exact ⟨hshape.1, hshape.2.1⟩

theorem inject_preserves_shape_witness :
    ((DataFrame.mk appCols []).cols = appCols) ∧
    (inject_application_quality_issues (DataFrame.mk appCols []) rate0 rate0 rate0
        default).1.cols = (DataFrame.mk appCols []).cols ∧
    (inject_application_quality_issues (DataFrame.mk appCols []) rate0 rate0 rate0
        default).1.rows.length = (DataFrame.mk appCols []).rows.length :=
  ⟨rfl, inject_preserves_shape (DataFrame.mk appCols []) rate0 rate0 rate0 default
    rfl (fun r hr => absurd hr (List.not_mem_nil r))⟩

theorem getD_append_lt {α : Type} (l1 l2 : List α) (d : α) (j : Nat)
    (h : j < l1.length) : (l1 ++ l2).getD j d = l1.getD j d :=
  List.getD_append _ _ _ _ h

/-- The fifth pass count, computed through the two appended helper columns,
equals the same comparison read from the original date columns. -/
theorem dateCount_eq_scan (df3 : DataFrame) (hc : df3.cols = appCols)
    (hal : Aligned df3) :
    (((addColCopy (addColCopy df3 "app_date" "application_date") "updated_date"
        "last_updated_date").rows.filter (fun r =>
      dateLtB (r.getD (colPos (addColCopy (addColCopy df3 "app_date"
          "application_date") "updated_date" "last_updated_date").cols
          "updated_date") Cell.null)
        (r.getD (colPos (addColCopy (addColCopy df3 "app_date"
          "application_date") "updated_date" "last_updated_date").cols
          "app_date") Cell.null))).length)
      = ((df3.rows.filter (fun r =>
          dateLtB (r.getD (colPos appCols "last_updated_date") Cell.null)
            (r.getD (colPos appCols "application_date") Cell.null))).length) := by
  have hcols4 : (addColCopy (addColCopy df3 "app_date" "application_date")
      "updated_date" "last_updated_date").cols
      = (appCols ++ ["app_date"]) ++ ["updated_date"] := by
    show (df3.cols ++ ["app_date"]) ++ ["updated_date"] = _
    rw [hc]
  have hpos1 : colPos ((appCols ++ ["app_date"]) ++ ["updated_date"])
      "updated_date" = 12 := by decide
  have hpos2 : colPos ((appCols ++ ["app_date"]) ++ ["updated_date"])
      "app_date" = 11 := by decide
  have hrows4 : (addColCopy (addColCopy df3 "app_date" "application_date")
      "updated_date" "last_updated_date").rows
      = df3.rows.map (fun r =>
          (r ++ [r.getD (colPos df3.cols "application_date") Cell.null])
            ++ [(r ++ [r.getD (colPos df3.cols "application_date") Cell.null]).getD
                  (colPos (df3.cols ++ ["app_date"]) "last_updated_date") Cell.null]) := by
    show (df3.rows.map _).map _ = _
    rw [List.map_map]
    rfl
  rw [hcols4, hpos1, hpos2, hrows4]
  rw [← List.countP_eq_length_filter, ← List.countP_eq_length_filter,
    List.countP_map]
  apply List.countP_congr
  intro r hr
  have hlen : r.length = 11 := by
    have := hal r hr
    rw [hc] at this
    exact this
  have hp3 : colPos df3.cols "application_date" = 3 := by
    rw [hc]
    decide
  have hp10 : colPos (df3.cols ++ ["app_date"]) "last_updated_date" = 10 := by
    rw [hc]
    decide
  simp only [Function.comp_apply, hp3, hp10]
  set x := r.getD 3 Cell.null with hx
  have h11 : (r ++ [x]).length = 12 := by simp [hlen]
  have e1 : ((r ++ [x]) ++ [(r ++ [x]).getD 10 Cell.null]).getD 12 Cell.null
      = (r ++ [x]).getD 10 Cell.null := by
    rw [show (12 : Nat) = (r ++ [x]).length by rw [h11]]
    exact getD_append_length _ _ _
  have e2 : (r ++ [x]).getD 10 Cell.null = r.getD 10 Cell.null :=
    getD_append_lt r [x] Cell.null 10 (by omega)
  have e3 : ∀ w, ((r ++ [x]) ++ [w]).getD 11 Cell.null = x := by
    intro w
    rw [getD_append_lt _ _ _ 11 (by omega)]
    rw [show (11 : Nat) = r.length by rw [hlen]]
    exact getD_append_length _ _ _
  have hq10 : colPos appCols "last_updated_date" = 10 := by decide
  have hq3 : colPos appCols "application_date" = 3 := by decide
  rw [e1, e2, e3 _, hq10, hq3, ← hx]

/-- Both scan-based statistics of inject_application_quality_issues equal the
defect counts read off the returned table. -/
theorem inject_scan_stats (df : DataFrame) (dr mr ir : Rate) (t : InjTape)
    (hcols : df.cols = appCols) (hal : Aligned df) :
    (inject_application_quality_issues df dr mr ir t).2.invalid_processing_days
      = ((inject_application_quality_issues df dr mr ir t).1.rows.filter
          (fun r => pdBad (r.getD (colPos appCols "processing_days") Cell.null))).length ∧
    (inject_application_quality_issues df dr mr ir t).2.invalid_dates
      = ((inject_application_quality_issues df dr mr ir t).1.rows.filter
          (fun r => dateLtB (r.getD (colPos appCols "last_updated_date") Cell.null)
            (r.getD (colPos appCols "application_date") Cell.null))).length := by
  have hdf := inject_df_eq df dr mr ir t hcols hal
  have hshape := injAfterPasses_shape df mr ir t
  have hc3 : (injAfterPasses df mr ir t).cols = appCols := by rw [hshape.1, hcols]
  have hal3 : Aligned (injAfterPasses df mr ir t) := hshape.2.2 hal
  constructor
  · show ((injAfterPasses df mr ir t).rows.filter (fun r =>
        pdBad (r.getD (colPos (injAfterPasses df mr ir t).cols "processing_days")
          Cell.null))).length = _
    rw [hdf, hc3]
  · show (((addColCopy (addColCopy (injAfterPasses df mr ir t) "app_date"
        "application_date") "updated_date" "last_updated_date").rows.filter
        (fun r => dateLtB
          (r.getD (colPos (addColCopy (addColCopy (injAfterPasses df mr ir t)
            "app_date" "application_date") "updated_date"
            "last_updated_date").cols "updated_date") Cell.null)
          (r.getD (colPos (addColCopy (addColCopy (injAfterPasses df mr ir t)
            "app_date" "application_date") "updated_date"
            "last_updated_date").cols "app_date") Cell.null))).length) = _
    rw [hdf]
    exact dateCount_eq_scan (injAfterPasses df mr ir t) hc3 hal3

/-- C7 (amended): only the invalid_processing_days and invalid_dates
statistics are recomputed by scanning the finished table, and those two equal
the number of rows of the returned table exhibiting the defect; the
duplicate, missing-status and mismatch statistics are incremental tallies of
their injection loops. -/
theorem inject_scan_stats_authoritative (df : DataFrame) (dr mr ir : Rate)
    (t : InjTape) (hcols : df.cols = appCols) (hal : Aligned df) :
    (inject_application_quality_issues df dr mr ir t).2.invalid_processing_days
      = ((inject_application_quality_issues df dr mr ir t).1.rows.filter
          (fun r => pdBad (r.getD (colPos appCols "processing_days") Cell.null))).length ∧
    (inject_application_quality_issues df dr mr ir t).2.invalid_dates
      = ((inject_application_quality_issues df dr mr ir t).1.rows.filter
          (fun r => dateLtB (r.getD (colPos appCols "last_updated_date") Cell.null)
            (r.getD (colPos appCols "application_date") Cell.null))).length :=
  inject_scan_stats df dr mr ir t hcols hal

/-- C7 counterexample: with all rates zero the missing-status injection loop
never runs, so the reported missing_status statistic is 0, while the returned
table has one row whose application_status is missing; the statistic is an
incremental tally, not a recomputed scan. -/
theorem inject_missing_status_counterexample :
    ¬ ((inject_application_quality_issues dfC7 rate0 rate0 rate0 default).2.missing_status
        = ((inject_application_quality_issues dfC7 rate0 rate0 rate0 default).1.rows.filter
            (fun r => r.getD (colPos appCols "application_status") Cell.null
              == Cell.null)).length) := by
  decide

theorem inject_scan_stats_witness :
    (dfC7.cols = appCols) ∧
    ((inject_application_quality_issues dfC7 rate0 rate0 rate0 default).2.invalid_processing_days
      = ((inject_application_quality_issues dfC7 rate0 rate0 rate0 default).1.rows.filter
          (fun r => pdBad (r.getD (colPos appCols "processing_days") Cell.null))).length ∧
    (inject_application_quality_issues dfC7 rate0 rate0 rate0 default).2.invalid_dates
      = ((inject_application_quality_issues dfC7 rate0 rate0 rate0 default).1.rows.filter
          (fun r => dateLtB (r.getD (colPos appCols "last_updated_date") Cell.null)
            (r.getD (colPos appCols "application_date") Cell.null))).length) :=
  ⟨rfl, inject_scan_stats_authoritative dfC7 rate0 rate0 rate0 default rfl
    (by intro r hr; fin_cases hr <;> rfl)⟩

theorem valid_branch_bound (a : Int) (r : Nat) (pd : Int) :
    a ≤ a + ((r % ((if pd > 0 then pd.toNat else 30) + 1) : Nat) : Int) ∧
    (a + ((r % ((if pd > 0 then pd.toNat else 30) + 1) : Nat) : Int)) - a
      ≤ (if 0 < pd then pd else 30) := by
  have hk : r % ((if pd > 0 then pd.toNat else 30) + 1)
      ≤ (if pd > 0 then pd.toNat else 30) :=
    Nat.le_of_lt_succ (Nat.mod_lt _ (Nat.succ_pos _))
  constructor
  · omega
  · by_cases h : (0 : Int) < pd
    · rw [if_pos h] at hk ⊢
      omega
    · rw [if_neg h] at hk ⊢
      omega

/-- The valid-ordering branch of generate_application_data: the last updated
date is the application date plus randint(0, cap) days with cap the
processing duration when positive, 30 otherwise. -/
theorem mkAppRow_valid_dates (popIds : List String)
    (idProv bcs : List (String × String)) (t : AppTape) (now : Int) (i : Nat)
    (hcoin : t.updCoin i = true) :
    (mkAppRow popIds idProv bcs t now i).application_date
      ≤ (mkAppRow popIds idProv bcs t now i).last_updated_date ∧
    (mkAppRow popIds idProv bcs t now i).last_updated_date
        - (mkAppRow popIds idProv bcs t now i).application_date
      ≤ (if 0 < (mkAppRow popIds idProv bcs t now i).processing_days
          then (mkAppRow popIds idProv bcs t now i).processing_days else 30) := by
  simp only [mkAppRow, hcoin, if_true]
  apply valid_branch_bound

/-- C8: on the valid-ordering branch of generate_application_data the last
updated date is on or after the application date, offset by at most
processing_days days (at most 30 when processing_days is non-positive); and
the invalid_dates statistic of inject_application_quality_issues counts
exactly the rows of the returned table whose last_updated_date is strictly
earlier than application_date, with no condition on application_status. -/
theorem app_dates_valid_and_counted :
    (∀ (popIds : List String) (idProv bcs : List (String × String))
        (t : AppTape) (now : Int) (i : Nat), t.updCoin i = true →
      (mkAppRow popIds idProv bcs t now i).application_date
        ≤ (mkAppRow popIds idProv bcs t now i).last_updated_date ∧
      (mkAppRow popIds idProv bcs t now i).last_updated_date
          - (mkAppRow popIds idProv bcs t now i).application_date
        ≤ (if 0 < (mkAppRow popIds idProv bcs t now i).processing_days
            then (mkAppRow popIds idProv bcs t now i).processing_days else 30)) ∧
    (∀ (df : DataFrame) (dr mr ir : Rate) (t : InjTape),
        df.cols = appCols → Aligned df →
      (inject_application_quality_issues df dr mr ir t).2.invalid_dates
        = ((inject_application_quality_issues df dr mr ir t).1.rows.filter
            (fun r =>
              dateLtB (r.getD (colPos appCols "last_updated_date") Cell.null)
                (r.getD (colPos appCols "application_date") Cell.null))).length) :=
  ⟨fun popIds idProv bcs t now i hcoin =>
      mkAppRow_valid_dates popIds idProv bcs t now i hcoin,
   fun df dr mr ir t hcols hal => (inject_scan_stats df dr mr ir t hcols hal).2⟩

theorem app_dates_valid_and_counted_witness :
    (updTrueTape.updCoin 0 = true) ∧
    ((mkAppRow [] [] [] updTrueTape 0 0).application_date
        ≤ (mkAppRow [] [] [] updTrueTape 0 0).last_updated_date) ∧
    ((inject_application_quality_issues dfC7 rate0 rate0 rate0 default).2.invalid_dates
        = ((inject_application_quality_issues dfC7 rate0 rate0 rate0 default).1.rows.filter
            (fun r =>
              dateLtB (r.getD (colPos appCols "last_updated_date") Cell.null)
                (r.getD (colPos appCols "application_date") Cell.null))).length) :=
  ⟨rfl, (app_dates_valid_and_counted.1 [] [] [] updTrueTape 0 0 rfl).1,
    app_dates_valid_and_counted.2 dfC7 rate0 rate0 rate0 default rfl
      (by intro r hr; fin_cases hr <;> rfl)⟩

theorem guardedSample_spec (n c : Nat) (tp : Nat → Nat) :
    SelSpec (if c > 0 then sampleIndices n (min c n) tp else []) c n := by
  by_cases h : c > 0
  · rw [if_pos h]
    refine ⟨?_, sampleIndices_nodup _ _ _, sampleIndices_lt _ _ _, ?_⟩
    · rw [sampleIndices_length]
      omega
    · omega
  · rw [if_neg h]
    refine ⟨?_, List.nodup_nil, by simp, fun _ => rfl⟩
    simp
    omega

theorem statusIdxs_nodup (df : DataFrame) : (statusIdxs df).Nodup :=
  (List.nodup_range _).filter _

theorem injMissSel_spec (df : DataFrame) (r : Rate) (t : InjTape) :
    SelSpecPool (injMissSel df r t) (statusIdxs df)
      (rateCount df.rows.length r) := by
  unfold injMissSel
  dsimp only
  by_cases h : (statusIdxs df).length > 0
  · rw [if_pos h]
    refine ⟨?_, sampleAux_nodup _ _ _ _ (statusIdxs_nodup df),
      fun x hx => sampleAux_subset _ _ _ _ x hx⟩
    rw [sampleAux_length]
    omega
  · rw [if_neg h]
    refine ⟨?_, List.nodup_nil, by simp⟩
    simp only [List.length_nil]
    omega

/-- C3 (amended): every random.sample based selection draws exactly
min(int(N x rate), pool size) distinct indices without replacement from its
pool (range(N) for the five pre-selected sets of generate_population_data and
for the duplicate draw of inject_application_quality_issues; status_indices
for the missing-status draw), zero-count categories give empty sets, and the
computed count is the floor of the rational product N x rate (x 2 for the
formatting category).  The province-mismatch loop of
inject_application_quality_issues instead performs int(N x invalid_rate)
independent randint draws WITH replacement: each drawn index is below N when
N is positive, but the drawn indices need not be distinct. -/
theorem anomaly_selection_spec :
    (∀ (n k : Nat) (t : Nat → Nat),
      (sampleIndices n k t).length = min k n ∧ (sampleIndices n k t).Nodup ∧
        ∀ x ∈ sampleIndices n k t, x < n) ∧
    (∀ (n : Nat) (r : Rate), 0 < r.den →
      rateCount n r = Nat.floor ((n : ℚ) * ((r.num : ℚ) / (r.den : ℚ)))) ∧
    (∀ (n : Nat) (r : Rate) (t : PopTape),
      SelSpec (popDupIdx n r t) (rateCount n r) n ∧
      SelSpec (popMissIdx n r t) (rateCount n r) n ∧
      SelSpec (popPostalIdx n r t) (rateCount n r) n ∧
      SelSpec (popFutureIdx n r t) (rateCount n r) n ∧
      SelSpec (popFmtIdx n r t) (rateCount n ⟨r.num * 2, r.den⟩) n) ∧
    (∀ (df : DataFrame) (r : Rate) (t : InjTape),
      SelSpec (injDupSel df r t) (rateCount df.rows.length r) df.rows.length ∧
      SelSpecPool (injMissSel df r t) (statusIdxs df)
        (rateCount df.rows.length r)) ∧
    (∀ (n num : Nat) (t : InjTape),
      (injMismatchIdxs n num t).length = num ∧
        (0 < n → ∀ x ∈ injMismatchIdxs n num t, x < n)) := by
  refine ⟨?_, ?_, ?_, ?_, ?_⟩
  · exact fun n k t => ⟨sampleIndices_length n k t, sampleIndices_nodup n k t,
      sampleIndices_lt n k t⟩
  · exact fun n r h => rateCount_eq_floor n r h
  · exact fun n r t => ⟨guardedSample_spec n _ t.sampleDup,
      guardedSample_spec n _ t.sampleMiss, guardedSample_spec n _ t.samplePostal,
      guardedSample_spec n _ t.sampleFuture, guardedSample_spec n _ t.sampleFmt⟩
  · exact fun df r t => ⟨guardedSample_spec df.rows.length _ t.sampleDupA,
      injMissSel_spec df r t⟩
  · intro n num t
    refine ⟨by simp [injMismatchIdxs], ?_⟩
    intro hn x hx
    simp only [injMismatchIdxs, List.mem_map, List.mem_range] at hx
    obtain ⟨s, _, hs⟩ := hx
    rw [← hs]
    exact Nat.mod_lt _ hn

theorem anomaly_selection_spec_witness :
    (0 < (⟨1, 2⟩ : Rate).den ∧ 0 < 3) ∧
    ((sampleIndices 5 3 (fun _ => 0)).length = min 3 5 ∧
     rateCount 4 ⟨1, 2⟩ = Nat.floor ((4 : ℚ) * ((1 : ℚ) / (2 : ℚ))) ∧
     ∀ x ∈ injMismatchIdxs 3 2 default, x < 3) :=
  ⟨⟨by decide, by decide⟩,
   (anomaly_selection_spec.1 5 3 (fun _ => 0)).1,
   anomaly_selection_spec.2.1 4 ⟨1, 2⟩ (by decide),
   (anomaly_selection_spec.2.2.2.2 3 2 default).2 (by decide)⟩

/-- C3 counterexample: with 3 rows and invalid_rate 7/10 the mismatch loop
performs int(3 * 0.7) = 2 independent randint draws; the constant-zero tape
draws index 0 twice, so the selected indices are not distinct. -/
theorem mismatch_draws_not_distinct :
    ¬ (injMismatchIdxs 3 (rateCount 3 ⟨7, 10⟩) default).Nodup := by
  decide

theorem popRowsFrom_province (n : Nat) (dr mr ir : Rate) (t : PopTape)
    (now : Int) :
    ∀ (remaining i : Nat) (taken : List String),
      ∀ row ∈ popRowsFrom n dr mr ir t now remaining i taken,
        row.province ∈ SA_PROVINCES
  | 0, _, _ => by simp [popRowsFrom]
  | remaining + 1, i, taken => by
    intro row hrow
    rcases List.mem_cons.mp hrow with h | h
    · rw [h]
      show chooseFrom SA_PROVINCES (t.provinceR i) "Gauteng" ∈ SA_PROVINCES
      exact chooseFrom_mem _ _ _ (by decide)
    · exact popRowsFrom_province n dr mr ir t now remaining (i + 1) _ row h

theorem popDupPass_province (t : PopTape) (n : Nat) :
    ∀ (ds : List Nat) (rows : List PopRow) (step : Nat),
      (∀ row ∈ rows, row.province ∈ SA_PROVINCES) →
      ∀ row ∈ popDupPass t n rows ds step, row.province ∈ SA_PROVINCES
  | [], rows, step, h => h
  | d :: rest, rows, step, h => by
    apply popDupPass_province t n rest _ (step + 1)
    intro row hrow
    rcases mem_set_cases _ _ _ row hrow with hmem | ⟨hd, heq⟩
    · exact h row hmem
    · rw [heq]
      show (rows.getD d default).province ∈ SA_PROVINCES
      refine h _ ?_
      rw [List.getD_eq_getElem _ _ hd]
      exact List.getElem_mem hd

/-- Every row of the generated registry has a province drawn from
SA_PROVINCES; the duplicate pass rewrites only identifiers. -/
theorem generate_population_province (n : Nat) (dr mr ir : Rate) (t : PopTape)
    (now : Int) :
    ∀ row ∈ generate_population_data n dr mr ir t now,
      row.province ∈ SA_PROVINCES := by
  unfold generate_population_data
  apply popDupPass_province
  exact popRowsFrom_province n dr mr ir t now n 0 []

theorem branch_codes_keys (t : AppTape) :
    (branch_codes t).map Prod.fst = allBranches := by
  unfold branch_codes
  rw [List.map_map]
  have h : ∀ p ∈ allBranches.enum,
      (Prod.fst ∘ fun p : Nat × String =>
        (p.2, String.mk (pad4 (100 + t.bcR p.1 % 9900)))) p = Prod.snd p :=
    fun p _ => rfl
  rw [List.map_congr_left h]
  exact List.enum_map_snd allBranches

theorem bcGet_isSome (t : AppTape) (b : String) (hb : b ∈ allBranches) :
    (bcGet (branch_codes t) b).isSome = true := by
  rw [← branch_codes_keys t] at hb
  obtain ⟨q, hq, hqb⟩ := List.mem_map.mp hb
  unfold bcGet
  cases hfound : List.find? (fun q => q.1 == b) (branch_codes t) with
  | none =>
    have hnone := List.find?_eq_none.mp hfound q hq
    rw [hqb] at hnone
    exact absurd (beq_self_eq_true b) (by simpa using hnone)
  | some x => rfl

/-- Facts about the concrete province tables, checked by evaluation. -/
theorem sa_provinces_facts :
    ∀ p ∈ SA_PROVINCES, p ∈ dhaKeys ∧ (dhaGet p).isSome = true ∧
      (dhaGet p).getD [] ≠ [] ∧ ∀ b ∈ (dhaGet p).getD [], b ∈ allBranches := by
  decide

theorem mkAppRow_province_mem (popIds : List String)
    (idProv bcs : List (String × String)) (t : AppTape) (now : Int) (i : Nat)
    (hvals : ∀ q ∈ idProv, q.2 ∈ SA_PROVINCES) :
    (mkAppRow popIds idProv bcs t now i).province ∈ SA_PROVINCES := by
  show (if t.refCoin i then
      (dictGetLast idProv (if t.refCoin i then chooseFrom popIds (t.pickIdR i) ""
        else generate_sa_id_number (1980 + t.orphanY i % 21) (1 + t.orphanM i % 12)
          (1 + t.orphanD i % 28) (t.orphanSeq i) (t.orphanAge i))).getD
        (chooseFrom SA_PROVINCES (t.provDefaultR i) "Gauteng")
    else chooseFrom SA_PROVINCES (t.orphanProvR i) "Gauteng") ∈ SA_PROVINCES
  by_cases h : t.refCoin i
  · rw [if_pos h]
    cases hfind : dictGetLast idProv (if t.refCoin i then
        chooseFrom popIds (t.pickIdR i) ""
      else generate_sa_id_number (1980 + t.orphanY i % 21) (1 + t.orphanM i % 12)
        (1 + t.orphanD i % 28) (t.orphanSeq i) (t.orphanAge i)) with
    | none => exact chooseFrom_mem _ _ _ (by decide)
    | some p =>
      simp only [Option.getD_some]
      unfold dictGetLast at hfind
      cases hf : idProv.reverse.find? (fun q => q.1 == (if t.refCoin i then
          chooseFrom popIds (t.pickIdR i) ""
        else generate_sa_id_number (1980 + t.orphanY i % 21)
          (1 + t.orphanM i % 12) (1 + t.orphanD i % 28) (t.orphanSeq i)
          (t.orphanAge i))) with
      | none => rw [hf] at hfind; simp at hfind
      | some q =>
        rw [hf] at hfind
        simp only [Option.map_some'] at hfind
        have hqmem : q ∈ idProv := List.mem_reverse.mp (List.mem_of_find?_eq_some hf)
        have hp2 : q.2 = p := Option.some.inj hfind
        rw [← hp2]
        exact hvals q hqmem
  · rw [if_neg h]
    exact chooseFrom_mem _ _ _ (by decide)

theorem mkAppRow_branch_mem (popIds : List String)
    (idProv bcs : List (String × String)) (t : AppTape) (now : Int) (i : Nat)
    (hvals : ∀ q ∈ idProv, q.2 ∈ SA_PROVINCES) :
    (mkAppRow popIds idProv bcs t now i).dha_branch_name ∈ allBranches := by
  have hprov := mkAppRow_province_mem popIds idProv bcs t now i hvals
  set province := (mkAppRow popIds idProv bcs t now i).province with hpv
  have hbranch : (mkAppRow popIds idProv bcs t now i).dha_branch_name
      = (if (dhaGet province).isSome then
          if t.branchCoin i then
            chooseFrom ((dhaGet province).getD []) (t.branchR i) ""
          else
            chooseFrom ((dhaGet (chooseFrom
              (SA_PROVINCES.filter (fun p => p ≠ province)) (t.otherProvR i)
              "Gauteng")).getD []) (t.otherBranchR i) ""
        else
          chooseFrom ((dhaGet (chooseFrom SA_PROVINCES (t.fallbackProvR i)
            "Gauteng")).getD []) (t.fallbackBranchR i) "") := rfl
  rw [hbranch]
  have hfromProv : ∀ q, q ∈ SA_PROVINCES →
      ∀ r : Nat, chooseFrom ((dhaGet q).getD []) r "" ∈ allBranches := by
    intro q hq r
    have hfacts := sa_provinces_facts q hq
    exact hfacts.2.2.2 _ (chooseFrom_mem _ _ _ hfacts.2.2.1)
  by_cases h1 : (dhaGet province).isSome
  · rw [if_pos h1]
    by_cases h2 : t.branchCoin i
    · simp only [h2, if_true]
      exact hfromProv province hprov _
    · simp only [h2, Bool.false_eq_true, if_false]
      have hop : chooseFrom (SA_PROVINCES.filter (fun p => p ≠ province))
          (t.otherProvR i) "Gauteng" ∈ SA_PROVINCES := by
        have hne : SA_PROVINCES.filter (fun p => p ≠ province) ≠ [] := by
          have : "Eastern Cape" ∈ SA_PROVINCES.filter (fun p => p ≠ province)
              ∨ "Free State" ∈ SA_PROVINCES.filter (fun p => p ≠ province) := by
            by_cases he : "Eastern Cape" = province
            · refine Or.inr (List.mem_filter.mpr ⟨by decide, ?_⟩)
              simp only [decide_eq_true_eq]
              rw [← he]
              decide
            · exact Or.inl (List.mem_filter.mpr ⟨by decide, by
                simp only [decide_eq_true_eq]; exact he⟩)
          rcases this with h | h <;> exact List.ne_nil_of_mem h
        have := chooseFrom_mem (SA_PROVINCES.filter (fun p => p ≠ province))
          (t.otherProvR i) "Gauteng" hne
        exact (List.mem_filter.mp this).1
      exact hfromProv _ hop _
  · rw [if_neg h1]
    exact hfromProv _ (chooseFrom_mem _ _ _ (by decide)) _

/-- C9: in generate_application_data applied to a generated registry, every
row's province is a DHA_BRANCHES key (so the fallback branch-selection path
is unreachable) and every branch name is a branch_codes key (so the
random-code default of the .get lookup is never used). -/
theorem app_rows_province_keys (nPop nApp : Nat) (dr mr ir : Rate)
    (pt : PopTape) (ta : AppTape) (nowP nowA : Int) :
    ∀ r ∈ generate_application_data nApp
        (generate_population_data nPop dr mr ir pt nowP) ta nowA,
      r.province ∈ dhaKeys ∧ (dhaGet r.province).isSome = true ∧
      (bcGet (branch_codes ta) r.dha_branch_name).isSome = true := by
  intro r hr
  unfold generate_application_data at hr
  obtain ⟨i, _, hi⟩ := List.mem_map.mp hr
  set pop := generate_population_data nPop dr mr ir pt nowP with hpop
  have hvals : ∀ q ∈ (pop.map PopRow.sa_id_number).zip (pop.map PopRow.province),
      q.2 ∈ SA_PROVINCES := by
    intro q hq
    have h2 := (List.of_mem_zip hq).2
    obtain ⟨row, hrow, hrowp⟩ := List.mem_map.mp h2
    rw [← hrowp]
    exact generate_population_province nPop dr mr ir pt nowP row hrow
  have hprov := mkAppRow_province_mem (pop.map PopRow.sa_id_number) _
    (branch_codes ta) ta nowA i hvals
  have hbranch := mkAppRow_branch_mem (pop.map PopRow.sa_id_number) _
    (branch_codes ta) ta nowA i hvals
  rw [← hi]
  have hfacts := sa_provinces_facts _ hprov
  exact ⟨hfacts.1, hfacts.2.1, bcGet_isSome ta _ hbranch⟩

theorem app_rows_province_keys_witness :
    ((generate_application_data 1 (generate_population_data 1 rate0 rate0 rate0
        default 800000) default 0).getD 0 default).province ∈ dhaKeys :=
  (app_rows_province_keys 1 1 rate0 rate0 rate0 default default 800000 0
    ((generate_application_data 1 (generate_population_data 1 rate0 rate0 rate0
        default 800000) default 0).getD 0 default)
    (by decide)).1

/-- C5: the reported orphan count equals the cardinality of the set
difference between the distinct application identifiers and the distinct
registry identifiers, and equivalently the number of distinct application
identifiers that do not occur anywhere in the registry column - both read off
the final tables only. -/
theorem toFinset_dedup {α : Type} [DecidableEq α] (l : List α) :
    l.dedup.toFinset = l.toFinset := by
  ext x
  simp [List.mem_dedup]

theorem orphan_count_is_set_difference (pop : List PopRow) (df : DataFrame) :
    print_orphan_count pop df
      = ((appIdColumn df).toFinset \ (popIdColumn pop).toFinset).card ∧
    print_orphan_count pop df
      = ((appIdColumn df).dedup.filter
          (fun c => !((popIdColumn pop).contains c))).length := by
  constructor
  · simp only [print_orphan_count]
    rw [toFinset_dedup, toFinset_dedup]
  · simp only [print_orphan_count]
    have hnodup : ((appIdColumn df).dedup.filter
        (fun c => !((popIdColumn pop).contains c))).Nodup :=
      (List.nodup_dedup _).filter _
    have h2 : ((appIdColumn df).dedup.filter
        (fun c => !((popIdColumn pop).contains c))).length
        = ((appIdColumn df).dedup.filter
            (fun c => !((popIdColumn pop).contains c))).toFinset.card := by
      rw [List.card_toFinset, hnodup.dedup]
    rw [h2]
    congr 1
    ext x
    simp only [List.mem_toFinset, List.mem_filter, Finset.mem_sdiff,
      List.mem_dedup, Bool.not_eq_true']
    constructor
    · intro hx
      refine ⟨hx.1, ?_⟩
      show List.elem x (popIdColumn pop) = false
      rw [List.elem_eq_mem]
      simpa using hx.2
    · intro hx
      refine ⟨hx.1, ?_⟩
      have h := hx.2
      rw [show (popIdColumn pop).contains x = List.elem x (popIdColumn pop)
        from rfl, List.elem_eq_mem] at h
      simpa using h

/-- C4 (amended): the pipeline is a deterministic function of the
configuration, the random tapes (the seed) and the generation clock instant:
two runs agreeing on all of those produce identical tables.  Agreement on
seed and configuration alone is not enough - see the clock counterexample. -/
theorem pipeline_deterministic (nPop nApp : Nat) (dr mr ir : Rate)
    (pt1 pt2 : PopTape) (ta1 ta2 : AppTape) (it1 it2 : InjTape)
    (now1 now2 : Int) (hpt : pt1 = pt2) (hta : ta1 = ta2) (hit : it1 = it2)
    (hnow : now1 = now2) :
    runPipeline nPop nApp dr mr ir pt1 ta1 it1 now1
      = runPipeline nPop nApp dr mr ir pt2 ta2 it2 now2 := by
  rw [hpt, hta, hit, hnow]

theorem pipeline_deterministic_witness :
    runPipeline 1 0 rate0 rate0 rate0 default default default 800000
      = runPipeline 1 0 rate0 rate0 rate0 default default default 800000 :=
  pipeline_deterministic 1 0 rate0 rate0 rate0 default default default default
    default default 800000 800000 rfl rfl rfl rfl

/-- C4 counterexample: identical configuration and identical tapes (seed),
but two runs one day apart give different tables, because datetime.now()
enters record_created_date; the pipeline is not a function of seed and
configuration alone. -/
theorem pipeline_clock_counterexample :
    runPipeline 1 0 rate0 rate0 rate0 popTapeC4 default default 723534
      ≠ runPipeline 1 0 rate0 rate0 rate0 popTapeC4 default default 723535 := by
  decide

end DHA
